import Mathlib

/-!
Verification of the libra consensus network-simulation harness
(`consensus/src/chained_bft/network_tests.rs`) and the proptest data
generators (`types/src/proptest_types.rs`), shallowly embedded in Lean.

Conventions of the embedding:
* `Author` (an opaque peer id derived from a public key) is a `Nat`.
* Rust `HashMap` values that the harness keys by `Author` are embedded as
  association lists (first occurrence of a key wins on lookup, matching a
  map with unique keys); `HashSet` becomes a duplicate-free `List`.
* Code paths that `panic!`/`unwrap` in Rust return `Except String` here,
  the error string naming the panic.
* Channels become explicit queues: each node keeps an ordered inbound
  list of notifications, new deliveries appended at the tail.
* Protobuf serialization of a `ConsensusMsg` is treated as the identity
  (the harness serializes and immediately re-parses the same bytes).
-/

abbrev Author := Nat

/-- Consensus message payloads carried over the wire; the payload contents
are abstracted to a `Nat` since the harness only routes and compares them. -/
inductive ConsensusMsg where
  | Vote (v : Nat)
  | Proposal (p : Nat)
  | TimeoutMsg (t : Nat)
  | SyncInfoMsg (s : Nat)
  deriving DecidableEq, Repr

/-- Outbound RPC request: protocol id, payload data, and the response
channel handle (`res_tx`), each abstracted to a `Nat`. -/
structure OutboundRpcRequest where
  protocol : Nat
  data : Nat
  res_tx : Nat
  deriving DecidableEq, Repr

/-- Inbound RPC request surfaced at the destination, with the same fields. -/
structure InboundRpcRequest where
  protocol : Nat
  data : Nat
  res_tx : Nat
  deriving DecidableEq, Repr

/-- Outbound network envelope. `SendMessage` and `SendRpc` are the two
variants the harness handles by name; the interface type itself lives
outside the two source files, so the remaining variant is modelled from
the spec (section 3 lists `SendMessage | Broadcast | SendRpc` as the
outbound tagged variants); it is exactly what the wildcard arms of
`is_message_dropped` and `deliver_message` match. -/
inductive NetworkRequest where
  | SendMessage (dst : Author) (msg : ConsensusMsg)
  | SendRpc (dst : Author) (req : OutboundRpcRequest)
  | Broadcast (msg : ConsensusMsg)
  deriving DecidableEq, Repr

/-- Inbound network notification delivered to a node. -/
inductive NetworkNotification where
  | RecvMessage (src : Author) (msg : ConsensusMsg)
  | RecvRpc (src : Author) (req : InboundRpcRequest)
  deriving DecidableEq, Repr

/-- Association map keyed by `Author`, embedding the `HashMap`s of the
harness; lookup takes the first matching key. -/
abbrev AssocMap (β : Type) := List (Author × β)

def AssocMap.lookup {β : Type} : AssocMap β → Author → Option β
  | [], _ => none
  | (k, v) :: rest, a => if k = a then some v else AssocMap.lookup rest a

/-- Apply `f` to the value stored at key `a` (first occurrence), if any. -/
def AssocMap.update {β : Type} : AssocMap β → Author → (β → β) → AssocMap β
  | [], _, _ => []
  | (k, v) :: rest, a, f =>
      if k = a then (k, f v) :: rest else (k, v) :: AssocMap.update rest a f

/-- The drop configuration: per-source set of destinations whose messages
are dropped (`DropConfig(HashMap<Author, HashSet<Author>>)`). -/
abbrev DropConfig := AssocMap (List Author)

namespace DropConfig

/-- `DropConfig::is_message_dropped`: direct-sends and RPCs are dropped
when the destination is in the drop set of the source; the `unwrap` on
the drop-set lookup sits inside those two arms, so it panics on an
unregistered source only there. Any other envelope shape is reported as
dropped by the wildcard arm without consulting the map at all. -/
def is_message_dropped (cfg : DropConfig) (src : Author) (net_req : NetworkRequest) :
    Except String Bool :=
  match net_req with
  | .SendMessage dst _ =>
    match cfg.lookup src with
    | none => .error "unwrap on drop set of unregistered source"
    | some s => .ok (s.contains dst)
  | .SendRpc dst _ =>
    match cfg.lookup src with
    | none => .error "unwrap on drop set of unregistered source"
    | some s => .ok (s.contains dst)
  | _ => .ok true

/-- `DropConfig::drop_message_for`: `HashSet::insert`, returning whether
the destination was newly inserted; panics when the source is unknown. -/
def drop_message_for (cfg : DropConfig) (src : Author) (dst : Author) :
    Except String (Bool × DropConfig) :=
  match cfg.lookup src with
  | none => .error "unwrap on drop set of unregistered source"
  | some s =>
    if s.contains dst then .ok (false, cfg)
    else .ok (true, cfg.update src (fun l => dst :: l))

/-- `DropConfig::stop_drop_message_for`: `HashSet::remove`, returning
whether the destination was present; panics when the source is unknown. -/
def stop_drop_message_for (cfg : DropConfig) (src : Author) (dst : Author) :
    Except String (Bool × DropConfig) :=
  match cfg.lookup src with
  | none => .error "unwrap on drop set of unregistered source"
  | some s => .ok (s.contains dst, cfg.update src (fun l => l.filter (fun d => d ≠ dst)))

/-- `DropConfig::add_node`: register a source with an empty drop set. -/
def add_node (cfg : DropConfig) (src : Author) : DropConfig :=
  (src, []) :: cfg

end DropConfig

/-- The routing table `node_consensus_txs` together with the contents of
each inbound channel: each registered node maps to its ordered inbound
notification queue. -/
abbrev Inbound := AssocMap (List NetworkNotification)

namespace NetworkPlayground

/-- `NetworkPlayground::deliver_message`: extract the destination (panics
on a non-`SendMessage` envelope), look up the destination sender (panics
when unregistered), convert to a `RecvMessage` notification, copy the
message, send the notification, and return the copy. -/
def deliver_message (inb : Inbound) (src : Author) (msg : NetworkRequest) :
    Except String (Inbound × (Author × ConsensusMsg)) :=
  match msg with
  | .SendMessage dst m =>
    match inb.lookup dst with
    | none => .error "unwrap on consensus tx of unregistered destination"
    | some _ =>
      .ok (inb.update dst (fun q => q ++ [.RecvMessage src m]), (src, m))
  | _ => .error "unexpected NetworkRequest"

/-- Outcome of a drain (`wait_for_messages`) over a finite buffered queue:
`done` returns the final queues, the unprocessed remainder of the buffer
and the accepted copies; `pending` is the state in which the loop is still
awaiting a further buffered item (the buffer ran out before the target
count was reached); `panicked` models a fatal harness assertion. -/
inductive DrainOutcome where
  | done (inb : Inbound) (rest : List (Author × NetworkRequest))
         (copies : List (Author × ConsensusMsg))
  | pending (inb : Inbound) (copies : List (Author × ConsensusMsg))
  | panicked (e : String)
  deriving DecidableEq, Repr

/-- `NetworkPlayground::wait_for_messages`: repeatedly pop the next
buffered `(source, request)`; skip it when `is_message_dropped` says so,
otherwise deliver it, and record the copy when the inspector accepts it;
stop once `num_messages` copies have been recorded. -/
def wait_for_messages (cfg : DropConfig) (msg_inspector : Author × ConsensusMsg → Bool) :
    Nat → Inbound → List (Author × NetworkRequest) → DrainOutcome
  | 0, inb, queue => .done inb queue []
  | Nat.succ _, inb, [] => .pending inb []
  | Nat.succ n, inb, (src, net_req) :: rest =>
      match DropConfig.is_message_dropped cfg src net_req with
      | .error e => .panicked e
      | .ok true => wait_for_messages cfg msg_inspector (n + 1) inb rest
      | .ok false =>
        match deliver_message inb src net_req with
        | .error e => .panicked e
        | .ok (inb', msg_copy) =>
          if msg_inspector msg_copy then
            match wait_for_messages cfg msg_inspector n inb' rest with
            | .done inb'' rest' copies => .done inb'' rest' (msg_copy :: copies)
            | .pending inb'' copies => .pending inb'' (msg_copy :: copies)
            | .panicked e => .panicked e
          else wait_for_messages cfg msg_inspector (n + 1) inb' rest

/-- `NetworkPlayground::take_all`: accept any message. -/
def take_all (_msg_copy : Author × ConsensusMsg) : Bool := true

/-- `ConsensusMsg` shape tests backing the message inspectors. -/
def hasVote : ConsensusMsg → Bool
  | .Vote _ => true
  | _ => false

def hasProposal : ConsensusMsg → Bool
  | .Proposal _ => true
  | _ => false

def hasTimeoutMsg : ConsensusMsg → Bool
  | .TimeoutMsg _ => true
  | _ => false

/-- `NetworkPlayground::votes_only`. -/
def votes_only (msg_copy : Author × ConsensusMsg) : Bool :=
  hasVote msg_copy.2

/-- `NetworkPlayground::proposals_only`. -/
def proposals_only (msg_copy : Author × ConsensusMsg) : Bool :=
  hasProposal msg_copy.2

/-- `NetworkPlayground::exclude_timeout_msg`. -/
def exclude_timeout_msg (msg_copy : Author × ConsensusMsg) : Bool :=
  !hasTimeoutMsg msg_copy.2

/-- `NetworkPlayground::start_node_outbound_handler`, one loop iteration
on one outbound request of node `src`: `drop_rpc` is computed first for
every request (panicking when the source is unregistered); an `SendRpc`
is discarded when dropped and otherwise immediately translated into a
`RecvRpc` at the destination (panicking when the destination is
unregistered); every other request is appended to the shared ordered
buffer for a later drain. -/
def handle_outbound (cfg : DropConfig) (inb : Inbound)
    (buffer : List (Author × NetworkRequest)) (src : Author) (net_req : NetworkRequest) :
    Except String (Inbound × List (Author × NetworkRequest)) :=
  match DropConfig.is_message_dropped cfg src net_req with
  | .error e => .error e
  | .ok drop_rpc =>
    match net_req with
    | .SendRpc dst outbound_req =>
      if drop_rpc then .ok (inb, buffer)
      else
        match inb.lookup dst with
        | none => .error "unwrap on consensus tx of unregistered destination"
        | some _ =>
          .ok (inb.update dst (fun q => q ++
                [.RecvRpc src ⟨outbound_req.protocol, outbound_req.data, outbound_req.res_tx⟩]),
               buffer)
    | other => .ok (inb, buffer ++ [(src, other)])

end NetworkPlayground

/-- Block retrieval status of an RPC response. -/
inductive BlockRetrievalStatus where
  | SUCCEEDED
  | ID_NOT_FOUND
  | NOT_ENOUGH_BLOCKS
  deriving DecidableEq, Repr

/-- `BlockRetrievalResponse`: status plus the ordered block list (blocks
abstracted to their ids). -/
structure BlockRetrievalResponse where
  status : BlockRetrievalStatus
  blocks : List Nat
  deriving DecidableEq, Repr

/-- Result observed by the caller of `request_block`: either the response
constructed by the remote retrieval handler, or a timeout. -/
inductive RpcResult where
  | response (r : BlockRetrievalResponse)
  | timeout
  deriving DecidableEq, Repr

/-- Modelled from the spec: `ConsensusNetworkImpl::send_vote` (the
endpoint lives outside the two source files) enqueues one independent
direct-send per recipient, in recipient order, through the outbound
handler of the sender, so the buffered queue receives one
`SendMessage` envelope per recipient. -/
def send_vote (sender : Author) (v : Nat) (recipients : List Author) :
    List (Author × NetworkRequest) :=
  recipients.map (fun r => (sender, NetworkRequest.SendMessage r (ConsensusMsg.Vote v)))

/-- Modelled from the spec: `ConsensusNetworkImpl::broadcast_proposal`
enqueues one direct-send to every registered peer other than self, never
to self. -/
def broadcast_proposal (peers : List Author) (sender : Author) (p : Nat) :
    List (Author × NetworkRequest) :=
  (peers.filter (fun a => a ≠ sender)).map
    (fun r => (sender, NetworkRequest.SendMessage r (ConsensusMsg.Proposal p)))

/-- Modelled from the spec: the votes receiver sequence of a node
(`NetworkReceivers.votes`) surfaces, in order, the vote payloads of the
`RecvMessage` notifications delivered to its inbound queue. -/
def votesOf (inb : Inbound) (a : Author) : List Nat :=
  ((inb.lookup a).getD []).filterMap (fun n =>
    match n with
    | .RecvMessage _ (.Vote v) => some v
    | _ => none)

/-- Modelled from the spec: the proposals receiver sequence of a node. -/
def proposalsOf (inb : Inbound) (a : Author) : List Nat :=
  ((inb.lookup a).getD []).filterMap (fun n =>
    match n with
    | .RecvMessage _ (.Proposal p) => some p
    | _ => none)

/-- Modelled from the spec: `request_block` issues a `SendRpc` through
the outbound handler of the requester and awaits the response channel; a
delivered `RecvRpc` is answered by the retrieval handler of the peer
(the `responder`), whose `BlockRetrievalResponse` the caller receives;
when the envelope is discarded by the drop configuration the caller
eventually observes a timeout. -/
def request_block_sim (cfg : DropConfig) (inb : Inbound) (src dst : Author)
    (r : OutboundRpcRequest) (responder : InboundRpcRequest → BlockRetrievalResponse) :
    Except String RpcResult :=
  match NetworkPlayground.handle_outbound cfg inb [] src (.SendRpc dst r) with
  | .error e => .error e
  | .ok (inb', _) =>
    match inb.lookup dst, inb'.lookup dst with
    | some old, some new =>
      match new.drop old.length with
      | [.RecvRpc _ ireq] => .ok (.response (responder ireq))
      | _ => .ok .timeout
    | _, _ => .ok .timeout

/-!
Embedding of the proptest generators of `types/src/proptest_types.rs`.
Cryptographic material (keys, signatures, public-key bytes) is abstracted
to `Nat`s: the generators only copy it around. `proptest_helpers::Index`
resolves to a valid index of a non-empty slice; it is embedded as a `Nat`
resolved as `i % accounts.length`, with the panic on an empty universe
returned as `Option.none`.
-/

/-- `EventHandle`: an event key (modelled as the pair of the address it
was derived from and the creation index) plus a counter. -/
structure EventHandle where
  key : Nat × Nat
  count : Nat
  deriving DecidableEq, Repr

/-- `AccountInfo`: address, keypair, sequence number and the two event
handles of one account of the universe. -/
structure AccountInfo where
  address : Nat
  private_key : Nat
  public_key : Nat
  sequence_number : Nat
  sent_event_handle : EventHandle
  received_event_handle : EventHandle
  deriving DecidableEq, Repr

/-- `AccountInfoUniverse`: the shared mutable universe of accounts. -/
structure AccountInfoUniverse where
  accounts : List AccountInfo
  deriving DecidableEq, Repr

namespace AccountInfoUniverse

/-- Resolve an `Index` against the universe (`get_account_info` /
`get_account_info_mut` target slot); `none` models the panic of indexing
an empty slice. -/
def slot (u : AccountInfoUniverse) (i : Nat) : Nat :=
  i % u.accounts.length

def get_account_info (u : AccountInfoUniverse) (i : Nat) : Option AccountInfo :=
  u.accounts[u.slot i]?

/-- Replace the account at the slot resolved by index `i`. -/
def set_account_info (u : AccountInfoUniverse) (i : Nat) (acc : AccountInfo) :
    AccountInfoUniverse :=
  ⟨u.accounts.set (u.slot i) acc⟩

end AccountInfoUniverse

/-- `TransactionPayload`, payload contents abstracted to `Nat`s. -/
inductive TransactionPayload where
  | Program (program : Nat)
  | Module (module : Nat)
  | Script (script : Nat)
  | WriteSet (write_set : Nat)
  deriving DecidableEq, Repr

/-- `RawTransaction`: the fields every constructor of the source fills. -/
structure RawTransaction where
  sender : Nat
  sequence_number : Nat
  payload : TransactionPayload
  max_gas_amount : Nat
  gas_unit_price : Nat
  expiration_time_secs : Nat
  deriving DecidableEq, Repr

/-- `RawTransaction::new` (constructor outside the two source files;
modelled from its callsite: stores sender, sequence number, the given
payload and the three gas/expiry fields). -/
def RawTransaction.new (sender sequence_number : Nat) (payload : TransactionPayload)
    (max_gas_amount gas_unit_price expiration_time_secs : Nat) : RawTransaction :=
  ⟨sender, sequence_number, payload, max_gas_amount, gas_unit_price, expiration_time_secs⟩

/-- `RawTransaction::new_module`, modelled from its callsite. -/
def RawTransaction.new_module (sender sequence_number module : Nat)
    (max_gas_amount gas_unit_price expiration_time_secs : Nat) : RawTransaction :=
  ⟨sender, sequence_number, .Module module, max_gas_amount, gas_unit_price,
   expiration_time_secs⟩

/-- `RawTransaction::new_script`, modelled from its callsite. -/
def RawTransaction.new_script (sender sequence_number script : Nat)
    (max_gas_amount gas_unit_price expiration_time_secs : Nat) : RawTransaction :=
  ⟨sender, sequence_number, .Script script, max_gas_amount, gas_unit_price,
   expiration_time_secs⟩

/-- `RawTransaction::new_write_set`. Modelled from the spec and the
callsite: the constructor receives only the sender, the sequence number
and the write set (the comment at the callsite notes that the generated
gas fields are not used), so the remaining fields are fixed constants. -/
def RawTransaction.new_write_set (sender sequence_number write_set : Nat) : RawTransaction :=
  ⟨sender, sequence_number, .WriteSet write_set, 0, 0, 0⟩

/-- `new_raw_transaction`: dispatch on the payload variant; the
`WriteSet` arm forwards only sender, sequence number and write set. -/
def new_raw_transaction (sender sequence_number : Nat) (payload : TransactionPayload)
    (max_gas_amount gas_unit_price expiration_time_secs : Nat) : RawTransaction :=
  match payload with
  | .Program program =>
      RawTransaction.new sender sequence_number (.Program program)
        max_gas_amount gas_unit_price expiration_time_secs
  | .Module module =>
      RawTransaction.new_module sender sequence_number module
        max_gas_amount gas_unit_price expiration_time_secs
  | .Script script =>
      RawTransaction.new_script sender sequence_number script
        max_gas_amount gas_unit_price expiration_time_secs
  | .WriteSet write_set =>
      RawTransaction.new_write_set sender sequence_number write_set

/-- `RawTransactionGen`: the pre-determined parts of a raw transaction. -/
structure RawTransactionGen where
  payload : TransactionPayload
  max_gas_amount : Nat
  gas_unit_price : Nat
  expiration_time_secs : Nat
  deriving DecidableEq, Repr

/-- `RawTransactionGen::materialize`: read the sender account, capture
its current sequence number, increment it in the universe, and build the
raw transaction from the captured number. -/
def RawTransactionGen.materialize (g : RawTransactionGen) (sender_index : Nat)
    (u : AccountInfoUniverse) : Option (RawTransaction × AccountInfoUniverse) :=
  match u.get_account_info sender_index with
  | none => none
  | some sender_info =>
    let sequence_number := sender_info.sequence_number
    let u' := u.set_account_info sender_index
      { sender_info with sequence_number := sender_info.sequence_number + 1 }
    some (new_raw_transaction sender_info.address sequence_number g.payload
            g.max_gas_amount g.gas_unit_price g.expiration_time_secs, u')

/-- `SignedTransaction`: a raw transaction together with the public key
and signature of its sender (signature abstracted as the signing key, the
claims never inspect it). -/
structure SignedTransaction where
  raw_txn : RawTransaction
  public_key : Nat
  signature : Nat
  deriving DecidableEq, Repr

/-- `SignatureCheckedTransaction` wraps a signed transaction whose
signature has been checked; `into_inner` unwraps it. -/
structure SignatureCheckedTransaction where
  inner : SignedTransaction
  deriving DecidableEq, Repr

def SignatureCheckedTransaction.into_inner (t : SignatureCheckedTransaction) :
    SignedTransaction :=
  t.inner

/-- `RawTransaction::sign` (outside the two source files; modelled from
the spec: the signer returns a signature for the hash, assumed
infallible): pair the raw transaction with the public key and the
signature produced from the private key. -/
def RawTransaction.sign (raw : RawTransaction) (private_key public_key : Nat) :
    SignatureCheckedTransaction :=
  ⟨⟨raw, public_key, private_key⟩⟩

/-- `SignatureCheckedTransactionGen`: wraps a `RawTransactionGen`. -/
structure SignatureCheckedTransactionGen where
  raw_transaction_gen : RawTransactionGen
  deriving DecidableEq, Repr

/-- `SignatureCheckedTransactionGen::materialize`: materialize the raw
transaction (mutating the universe), then sign it with the keypair of
the sender account. -/
def SignatureCheckedTransactionGen.materialize (g : SignatureCheckedTransactionGen)
    (sender_index : Nat) (u : AccountInfoUniverse) :
    Option (SignatureCheckedTransaction × AccountInfoUniverse) :=
  match g.raw_transaction_gen.materialize sender_index u with
  | none => none
  | some (raw_txn, u') =>
    match u'.get_account_info sender_index with
    | none => none
    | some account_info =>
      some (raw_txn.sign account_info.private_key account_info.public_key, u')

/-- `ContractEvent`: event key, per-handle sequence number, payload. -/
structure ContractEvent where
  key : Nat × Nat
  sequence_number : Nat
  event_data : Nat
  deriving DecidableEq, Repr

/-- `ContractEventGen`: payload plus the choice of handle. -/
structure ContractEventGen where
  payload : Nat
  use_sent_key : Bool
  deriving DecidableEq, Repr

/-- `ContractEventGen::materialize`: pick the sent or received handle of
the resolved account, capture its count as the event sequence number,
increment the count in the universe, and emit the event under the handle
key. -/
def ContractEventGen.materialize (g : ContractEventGen) (account_index : Nat)
    (u : AccountInfoUniverse) : Option (ContractEvent × AccountInfoUniverse) :=
  match u.get_account_info account_index with
  | none => none
  | some account_info =>
    if g.use_sent_key then
      let handle := account_info.sent_event_handle
      some (⟨handle.key, handle.count, g.payload⟩,
            u.set_account_info account_index
              { account_info with sent_event_handle := { handle with count := handle.count + 1 } })
    else
      let handle := account_info.received_event_handle
      some (⟨handle.key, handle.count, g.payload⟩,
            u.set_account_info account_index
              { account_info with
                  received_event_handle := { handle with count := handle.count + 1 } })

/-- `AccountResource`: balance, sequence number, authentication key
(the public-key bytes), capability flags, and the two event handles. -/
structure AccountResource where
  balance : Nat
  sequence_number : Nat
  authentication_key : Nat
  delegated_key_rotation_capability : Bool
  delegated_withdrawal_capability : Bool
  sent_event_handle : EventHandle
  received_event_handle : EventHandle
  deriving DecidableEq, Repr

/-- `AccountResourceGen`: the pre-determined fields of a resource. -/
structure AccountResourceGen where
  balance : Nat
  delegated_key_rotation_capability : Bool
  delegated_withdrawal_capability : Bool
  deriving DecidableEq, Repr

/-- `AccountResourceGen::materialize`: read (without mutating) the
resolved account and snapshot its sequence number, public key and event
handles into a resource. -/
def AccountResourceGen.materialize (g : AccountResourceGen) (account_index : Nat)
    (u : AccountInfoUniverse) : Option AccountResource :=
  match u.get_account_info account_index with
  | none => none
  | some account_info =>
    some ⟨g.balance, account_info.sequence_number, account_info.public_key,
          g.delegated_key_rotation_capability, g.delegated_withdrawal_capability,
          account_info.sent_event_handle, account_info.received_event_handle⟩

/-- `AccountStateBlob`: the serialized account state; serialization of a
resource is treated as the identity wrapper. -/
structure AccountStateBlob where
  resource : AccountResource
  deriving DecidableEq, Repr

/-- `AccountStateBlobGen`: wraps an `AccountResourceGen`. -/
structure AccountStateBlobGen where
  account_resource_gen : AccountResourceGen
  deriving DecidableEq, Repr

/-- `AccountStateBlobGen::materialize`: materialize the resource and wrap
it as a blob. -/
def AccountStateBlobGen.materialize (g : AccountStateBlobGen) (account_index : Nat)
    (u : AccountInfoUniverse) : Option AccountStateBlob :=
  match g.account_resource_gen.materialize account_index u with
  | none => none
  | some r => some ⟨r⟩

/-- Transaction status codes of the generator (only the variants the
claims touch are distinguished; the rest are abstracted by an id). -/
abbrev StatusCode := Nat

/-- `TransactionToCommit`: the materialized commit record. -/
structure TransactionToCommit where
  transaction : SignedTransaction
  account_states : List (Nat × AccountStateBlob)
  events : List ContractEvent
  gas_used : Nat
  major_status : StatusCode
  deriving DecidableEq, Repr

/-- `TransactionToCommitGen`: intents as indices into the universe. -/
structure TransactionToCommitGen where
  transaction_gen : Nat × SignatureCheckedTransactionGen
  event_gens : List (Nat × ContractEventGen)
  account_state_gens : List (Nat × AccountStateBlobGen)
  gas_used : Nat
  major_status : StatusCode
  deriving DecidableEq, Repr

/-- Materialize the event intents left to right, threading the universe. -/
def materializeEvents : List (Nat × ContractEventGen) → AccountInfoUniverse →
    Option (List ContractEvent × AccountInfoUniverse)
  | [], u => some ([], u)
  | (i, g) :: rest, u =>
    match g.materialize i u with
    | none => none
    | some (e, u') =>
      match materializeEvents rest u' with
      | none => none
      | some (es, u'') => some (e :: es, u'')

/-- Materialize the account-state intents against a fixed universe
(`get_account_info` and `AccountStateBlobGen::materialize` take the
universe immutably), pairing each blob with the address of its account. -/
def materializeStates : List (Nat × AccountStateBlobGen) → AccountInfoUniverse →
    Option (List (Nat × AccountStateBlob))
  | [], _ => some []
  | (i, g) :: rest, u =>
    match u.get_account_info i, g.materialize i u with
    | some acc, some blob =>
      match materializeStates rest u with
      | none => none
      | some l => some ((acc.address, blob) :: l)
    | _, _ => none

/-- `TransactionToCommitGen::materialize`: the sender transaction first
(updating the sender sequence number), the event emitters next (updating
their event-handle counts), and the touched-account state snapshots
last, against the universe as updated by the first two phases. -/
def TransactionToCommitGen.materialize (g : TransactionToCommitGen)
    (u : AccountInfoUniverse) : Option (TransactionToCommit × AccountInfoUniverse) :=
  match g.transaction_gen.2.materialize g.transaction_gen.1 u with
  | none => none
  | some (checked_txn, u1) =>
    match materializeEvents g.event_gens u1 with
    | none => none
    | some (events, u2) =>
      match materializeStates g.account_state_gens u2 with
      | none => none
      | some account_states =>
        some (⟨checked_txn.into_inner, account_states, events, g.gas_used, g.major_status⟩, u2)

/-- Whether a drain outcome is a fatal harness panic. -/
def NetworkPlayground.DrainOutcome.isPanic : NetworkPlayground.DrainOutcome → Bool
  | .panicked _ => true
  | _ => false

/-- Whether a notification originates from source `a`. -/
def notifFrom (a : Author) : NetworkNotification → Bool
  | .RecvMessage s _ => s == a
  | .RecvRpc s _ => s == a

/-- Boolean view of the drop check used to phrase ordering statements:
a pair with an unregistered source is classified as dropped (the real
check panics there, so the classification is only consulted on runs that
do not panic). -/
def droppedB (cfg : DropConfig) (src dst : Author) : Bool :=
  match cfg.lookup src with
  | none => true
  | some s => s.contains dst

/-- The notifications a full drain of `queue` appends to the inbound
queue of `dst`, in buffer order: one `RecvMessage` per non-dropped
direct-send addressed to `dst`. -/
def deliveredTo (cfg : DropConfig) (dst : Author)
    (queue : List (Author × NetworkRequest)) : List NetworkNotification :=
  queue.filterMap (fun p =>
    match p.2 with
    | .SendMessage d m =>
      if d = dst && !droppedB cfg p.1 d then some (.RecvMessage p.1 m) else none
    | _ => none)

/-- Number of event intents of `egs` that resolve to account slot `k`
(in a universe of `len` accounts) and emit on the sent handle. -/
def sentEmits (egs : List (Nat × ContractEventGen)) (len k : Nat) : Nat :=
  (egs.filter (fun p => decide (p.1 % len = k) && p.2.use_sent_key)).length

/-- Number of event intents of `egs` that resolve to account slot `k`
and emit on the received handle. -/
def recvEmits (egs : List (Nat × ContractEventGen)) (len k : Nat) : Nat :=
  (egs.filter (fun p => decide (p.1 % len = k) && !p.2.use_sent_key)).length

/-- The five-validator scenario of `test_network_api`: all five peers
registered, no drops configured, all inbound queues empty. -/
def peersFive : List Author := [0, 1, 2, 3, 4]

def cfgFive : DropConfig := [(0, []), (1, []), (2, []), (3, []), (4, [])]

def inbFive : Inbound := [(0, []), (1, []), (2, []), (3, []), (4, [])]

/-! ## Association map lemmas -/

theorem AssocMap.lookup_update_self {β : Type} (m : AssocMap β) (a : Author) (f : β → β) :
    (m.update a f).lookup a = (m.lookup a).map f := by
  induction m with
  | nil => rfl
  | cons p rest ih =>
    obtain ⟨k, v⟩ := p
    by_cases h : k = a <;> simp [AssocMap.update, AssocMap.lookup, h, ih]

theorem AssocMap.lookup_update_ne {β : Type} (m : AssocMap β) (a b : Author) (f : β → β)
    (h : b ≠ a) : (m.update a f).lookup b = m.lookup b := by
  induction m with
  | nil => rfl
  | cons p rest ih =>
    obtain ⟨k, v⟩ := p
    by_cases hk : k = a
    · subst hk
      simp [AssocMap.update, AssocMap.lookup, Ne.symm h]
    · simp [AssocMap.update, AssocMap.lookup, hk, ih]

theorem AssocMap.update_eq_self {β : Type} (m : AssocMap β) (a : Author) (f : β → β)
    (h : ∀ v, m.lookup a = some v → f v = v) : m.update a f = m := by
  induction m with
  | nil => rfl
  | cons p rest ih =>
    obtain ⟨k, v⟩ := p
    by_cases hk : k = a
    · subst hk
      have := h v (by simp [AssocMap.lookup])
      simp [AssocMap.update, this]
    · simp [AssocMap.update, AssocMap.lookup, hk] at h ⊢
      exact ih h

/-! ## Drop-set list lemmas -/

theorem not_mem_filter_ne (s : List Author) (dst : Author) :
    dst ∉ s.filter (fun d => d ≠ dst) := by
  intro h
  have := List.of_mem_filter h
  simp at this

theorem contains_filter_ne (s : List Author) (dst : Author) :
    (s.filter (fun d => d ≠ dst)).contains dst = false := by
  simp [not_mem_filter_ne s dst]

theorem filter_ne_of_not_mem (s : List Author) (dst : Author)
    (h : dst ∉ s) : s.filter (fun d => d ≠ dst) = s := by
  refine List.filter_eq_self.mpr ?_
  intro a ha
  simp only [ne_eq, decide_eq_true_eq]
  exact fun had => h (had ▸ ha)

theorem filter_ne_idem (s : List Author) (dst : Author) :
    (s.filter (fun d => d ≠ dst)).filter (fun d => d ≠ dst) = s.filter (fun d => d ≠ dst) :=
  filter_ne_of_not_mem _ _ (not_mem_filter_ne s dst)

/-- C7: for every registered source `src` and destination `dst`,
`drop_message_for` adds `dst` to the drop set of `src` and
`stop_drop_message_for` removes it; each returns `true` exactly when the
set actually changed (`false` when the pair was already present,
respectively absent, in which case the configuration is unchanged), and
both are idempotent in effect: a second identical call returns `false`
and leaves the configuration as it was. -/
theorem drop_config_add_remove_idempotent (cfg : DropConfig) (src dst : Author)
    (s : List Author) (hreg : cfg.lookup src = some s) :
    (dst ∈ s → DropConfig.drop_message_for cfg src dst = .ok (false, cfg)) ∧
    (dst ∉ s →
      DropConfig.drop_message_for cfg src dst =
        .ok (true, cfg.update src (fun l => dst :: l)) ∧
      (cfg.update src (fun l => dst :: l)).lookup src = some (dst :: s) ∧
      dst ∈ (dst :: s)) ∧
    (∀ b cfg', DropConfig.drop_message_for cfg src dst = .ok (b, cfg') →
      DropConfig.drop_message_for cfg' src dst = .ok (false, cfg')) ∧
    (DropConfig.stop_drop_message_for cfg src dst =
      .ok (decide (dst ∈ s), cfg.update src (fun l => l.filter (fun d => d ≠ dst)))) ∧
    ((cfg.update src (fun l => l.filter (fun d => d ≠ dst))).lookup src =
        some (s.filter (fun d => d ≠ dst)) ∧
      dst ∉ s.filter (fun d => d ≠ dst)) ∧
    (dst ∉ s →
      cfg.update src (fun l => l.filter (fun d => d ≠ dst)) = cfg) ∧
    (∀ b cfg', DropConfig.stop_drop_message_for cfg src dst = .ok (b, cfg') →
      DropConfig.stop_drop_message_for cfg' src dst = .ok (false, cfg')) := by
  have hlookup_cons : (cfg.update src (fun l => dst :: l)).lookup src = some (dst :: s) := by
    rw [AssocMap.lookup_update_self, hreg]
    rfl
  have hlookup_filter : (cfg.update src (fun l => l.filter (fun d => d ≠ dst))).lookup src =
      some (s.filter (fun d => d ≠ dst)) := by
    rw [AssocMap.lookup_update_self, hreg]
    rfl
  refine ⟨?_, ?_, ?_, ?_, ⟨hlookup_filter, not_mem_filter_ne s dst⟩, ?_, ?_⟩
  · intro h
    simp [DropConfig.drop_message_for, hreg, h]
  · intro h
    exact ⟨by simp [DropConfig.drop_message_for, hreg, h], hlookup_cons, by simp⟩
  · intro b cfg' hcall
    by_cases h : dst ∈ s
    · simp [DropConfig.drop_message_for, hreg, h] at hcall
      obtain ⟨rfl, rfl⟩ := hcall
      simp [DropConfig.drop_message_for, hreg, h]
    · simp [DropConfig.drop_message_for, hreg, h] at hcall
      obtain ⟨rfl, rfl⟩ := hcall
      have hl : (cfg.update src (fun l => dst :: l)).lookup src = some (dst :: s) := by
        rw [AssocMap.lookup_update_self, hreg]
        rfl
      simp only [DropConfig.drop_message_for, hl]
      simp
  · simp [DropConfig.stop_drop_message_for, hreg]
  · intro h
    exact AssocMap.update_eq_self cfg src _ (fun v hv => by
      rw [hreg] at hv
      cases hv
      exact filter_ne_of_not_mem s dst h)
  · intro b cfg' hcall
    simp only [DropConfig.stop_drop_message_for, hreg] at hcall
    rw [Except.ok.injEq, Prod.mk.injEq] at hcall
    obtain ⟨rfl, rfl⟩ := hcall
    simp only [DropConfig.stop_drop_message_for, hlookup_filter, contains_filter_ne]
    have hupd : (cfg.update src (fun l => l.filter (fun d => d ≠ dst))).update src
        (fun l => l.filter (fun d => d ≠ dst)) =
        cfg.update src (fun l => l.filter (fun d => d ≠ dst)) :=
      AssocMap.update_eq_self _ src _ (fun v hv => by
        rw [hlookup_filter] at hv
        cases hv
        exact filter_ne_idem s dst)
    rw [hupd]

/-- Witness for C7 at a concrete configuration: source 0 registered with
an empty drop set; dropping destination 1 reports a change. -/
theorem drop_config_add_remove_idempotent_witness :
    AssocMap.lookup [(0, ([] : List Author))] 0 = some [] ∧
    DropConfig.drop_message_for [(0, ([] : List Author))] 0 1 =
      .ok (true, AssocMap.update [(0, ([] : List Author))] 0 (fun l => 1 :: l)) :=
  ⟨by decide,
   ((drop_config_add_remove_idempotent [(0, [])] 0 1 [] (by decide)).2.1 (by decide)).1⟩

/-- C1: for every target count `n` and predicate over (source, message),
a drain (`wait_for_messages`) that completes returns exactly `n` recorded
copies, every one of them accepted by the predicate (delivered messages
the predicate rejects are not in the result); and a buffered item whose
(source, destination) pair is drop-configured is popped and discarded
without being delivered or counted: the drain continues on the remaining
queue with the target count and all inbound queues unchanged. -/
theorem wait_for_messages_returns_exactly_n
    (cfg : DropConfig) (pred : Author × ConsensusMsg → Bool) :
    (∀ (queue : List (Author × NetworkRequest)) (n : Nat) (inb inb' : Inbound)
       (rest : List (Author × NetworkRequest)) (copies : List (Author × ConsensusMsg)),
       NetworkPlayground.wait_for_messages cfg pred n inb queue =
         .done inb' rest copies →
       copies.length = n ∧ ∀ c ∈ copies, pred c = true) ∧
    (∀ (src : Author) (req : NetworkRequest) (n : Nat) (inb : Inbound)
       (queue : List (Author × NetworkRequest)),
       DropConfig.is_message_dropped cfg src req = .ok true →
       NetworkPlayground.wait_for_messages cfg pred (n + 1) inb ((src, req) :: queue) =
         NetworkPlayground.wait_for_messages cfg pred (n + 1) inb queue) := by
  constructor
  · intro queue
    induction queue with
    | nil =>
      intro n inb inb' rest copies h
      match n with
      | 0 =>
        simp only [NetworkPlayground.wait_for_messages,
          NetworkPlayground.DrainOutcome.done.injEq] at h
        obtain ⟨-, -, rfl⟩ := h
        simp
      | Nat.succ m =>
        simp only [NetworkPlayground.wait_for_messages] at h
        cases h
    | cons item tail ih =>
      obtain ⟨src, req⟩ := item
      intro n inb inb' rest copies h
      match n with
      | 0 =>
        simp only [NetworkPlayground.wait_for_messages,
          NetworkPlayground.DrainOutcome.done.injEq] at h
        obtain ⟨-, -, rfl⟩ := h
        simp
      | Nat.succ m =>
        simp only [NetworkPlayground.wait_for_messages] at h
        cases hdrop : DropConfig.is_message_dropped cfg src req with
        | error e =>
          rw [hdrop] at h
          cases h
        | ok b =>
          rw [hdrop] at h
          cases b with
          | true =>
            exact ih (m + 1) inb inb' rest copies h
          | false =>
            cases hdel : NetworkPlayground.deliver_message inb src req with
            | error e =>
              rw [hdel] at h
              cases h
            | ok r =>
              obtain ⟨inb2, msg_copy⟩ := r
              rw [hdel] at h
              dsimp only at h
              by_cases hp : pred msg_copy = true
              · rw [if_pos hp] at h
                cases hrec : NetworkPlayground.wait_for_messages cfg pred m inb2 tail with
                | done inb3 rest3 cs =>
                  rw [hrec] at h
                  simp only [NetworkPlayground.DrainOutcome.done.injEq] at h
                  obtain ⟨rfl, rfl, rfl⟩ := h
                  obtain ⟨hl, hall⟩ := ih m inb2 inb3 rest3 cs hrec
                  refine ⟨by simp [hl], ?_⟩
                  intro c hc
                  rcases List.mem_cons.mp hc with rfl | hc
                  · exact hp
                  · exact hall c hc
                | pending inb3 cs =>
                  rw [hrec] at h
                  cases h
                | panicked e =>
                  rw [hrec] at h
                  cases h
              · rw [if_neg hp] at h
                exact ih (m + 1) inb2 inb' rest copies h
  · intro src req n inb queue hdrop
    simp only [NetworkPlayground.wait_for_messages]
    rw [hdrop]

/-- Witness for C1 at a concrete drain: two registered peers, no drops,
one buffered vote, target count 1. -/
theorem wait_for_messages_returns_exactly_n_witness :
    (NetworkPlayground.wait_for_messages [(0, []), (1, [])] NetworkPlayground.take_all 1
        [(0, []), (1, [])] [(0, NetworkRequest.SendMessage 1 (ConsensusMsg.Vote 5))] =
      NetworkPlayground.DrainOutcome.done
        [(0, []), (1, [NetworkNotification.RecvMessage 0 (ConsensusMsg.Vote 5)])]
        [] [(0, ConsensusMsg.Vote 5)]) ∧
    ([((0 : Author), ConsensusMsg.Vote 5)].length = 1 ∧
      ∀ c ∈ [((0 : Author), ConsensusMsg.Vote 5)], NetworkPlayground.take_all c = true) :=
  ⟨by decide,
   (wait_for_messages_returns_exactly_n [(0, []), (1, [])] NetworkPlayground.take_all).1
     [(0, NetworkRequest.SendMessage 1 (ConsensusMsg.Vote 5))] 1
     [(0, []), (1, [])]
     [(0, []), (1, [NetworkNotification.RecvMessage 0 (ConsensusMsg.Vote 5)])]
     [] [(0, ConsensusMsg.Vote 5)] (by decide)⟩

/-! ## Delivery-effect lemmas for the drain -/

theorem dropped_send_eq_droppedB (cfg : DropConfig) (src d : Author) (m : ConsensusMsg)
    (b : Bool) (h : DropConfig.is_message_dropped cfg src (.SendMessage d m) = .ok b) :
    droppedB cfg src d = b := by
  unfold DropConfig.is_message_dropped at h
  cases hc : cfg.lookup src with
  | none => rw [hc] at h; cases h
  | some s =>
    rw [hc] at h
    simp only [Except.ok.injEq] at h
    simpa [droppedB, hc] using h

theorem deliveredTo_cons_dropped (cfg : DropConfig) (dst src : Author) (req : NetworkRequest)
    (q : List (Author × NetworkRequest))
    (h : DropConfig.is_message_dropped cfg src req = .ok true) :
    deliveredTo cfg dst ((src, req) :: q) = deliveredTo cfg dst q := by
  cases req with
  | SendMessage d m =>
    have hb := dropped_send_eq_droppedB cfg src d m true h
    simp [deliveredTo, hb]
  | SendRpc d r => simp [deliveredTo]
  | Broadcast m => simp [deliveredTo]

theorem deliveredTo_cons_send (cfg : DropConfig) (dst src d : Author) (m : ConsensusMsg)
    (q : List (Author × NetworkRequest)) (hb : droppedB cfg src d = false) :
    deliveredTo cfg dst ((src, NetworkRequest.SendMessage d m) :: q) =
      (if d = dst then [NetworkNotification.RecvMessage src m] else []) ++
        deliveredTo cfg dst q := by
  by_cases hd : d = dst
  · subst hd
    simp [deliveredTo, hb]
  · simp [deliveredTo, hd]

theorem deliver_message_ok_inv (inb : Inbound) (src : Author) (req : NetworkRequest)
    (inb2 : Inbound) (copy : Author × ConsensusMsg)
    (h : NetworkPlayground.deliver_message inb src req = .ok (inb2, copy)) :
    ∃ d m l0, req = NetworkRequest.SendMessage d m ∧ inb.lookup d = some l0 ∧
      inb2 = inb.update d (fun q => q ++ [NetworkNotification.RecvMessage src m]) ∧
      copy = (src, m) := by
  cases req with
  | SendMessage d m =>
    cases hc : inb.lookup d with
    | none => simp [NetworkPlayground.deliver_message, hc] at h
    | some l0 =>
      simp only [NetworkPlayground.deliver_message, hc, Except.ok.injEq, Prod.mk.injEq] at h
      exact ⟨d, m, l0, rfl, hc, h.1.symm, h.2.symm⟩
  | SendRpc d r => simp [NetworkPlayground.deliver_message] at h
  | Broadcast m => simp [NetworkPlayground.deliver_message] at h

/-- One delivery step composed with the effect of the remaining drain:
delivering a non-dropped direct-send `(src, d, m)` and then appending the
deliveries of `q1` equals appending the deliveries of the extended
queue. -/
theorem lookup_after_update_step (cfg : DropConfig) (inb inb3 : Inbound) (src d : Author)
    (mmsg : ConsensusMsg) (q1 : List (Author × NetworkRequest))
    (hb : droppedB cfg src d = false)
    (heff : ∀ dst l,
      (inb.update d (fun q => q ++ [NetworkNotification.RecvMessage src mmsg])).lookup dst =
        some l →
      inb3.lookup dst = some (l ++ deliveredTo cfg dst q1)) :
    ∀ dst l, inb.lookup dst = some l →
      inb3.lookup dst = some (l ++ deliveredTo cfg dst
        ((src, NetworkRequest.SendMessage d mmsg) :: q1)) := by
  intro dst l hl
  rw [deliveredTo_cons_send cfg dst src d mmsg q1 hb]
  by_cases hd : d = dst
  · subst hd
    have hl2 : (inb.update d
        (fun q => q ++ [NetworkNotification.RecvMessage src mmsg])).lookup d =
        some (l ++ [NetworkNotification.RecvMessage src mmsg]) := by
      rw [AssocMap.lookup_update_self, hl]
      rfl
    rw [heff d _ hl2]
    simp
  · have hl2 : (inb.update d
        (fun q => q ++ [NetworkNotification.RecvMessage src mmsg])).lookup dst =
        some l := by
      rw [AssocMap.lookup_update_ne _ _ _ _ (fun hh => hd hh.symm), hl]
    rw [heff dst _ hl2]
    simp [hd]

/-- Effect of a drain on the inbound queues: a completed drain has
processed a prefix of the buffer and appended, to each destination, the
non-dropped direct-sends of that prefix addressed to it, in buffer
order; a drain that exhausted the buffer has done so for the entire
buffer. -/
theorem wait_for_messages_inbound_effect (cfg : DropConfig)
    (pred : Author × ConsensusMsg → Bool) :
    ∀ (queue : List (Author × NetworkRequest)) (n : Nat) (inb : Inbound),
      (∀ inb' rest copies,
        NetworkPlayground.wait_for_messages cfg pred n inb queue = .done inb' rest copies →
        ∃ q1, queue = q1 ++ rest ∧
          ∀ dst l, inb.lookup dst = some l →
            inb'.lookup dst = some (l ++ deliveredTo cfg dst q1)) ∧
      (∀ inb' copies,
        NetworkPlayground.wait_for_messages cfg pred n inb queue = .pending inb' copies →
        ∀ dst l, inb.lookup dst = some l →
          inb'.lookup dst = some (l ++ deliveredTo cfg dst queue)) := by
  intro queue
  induction queue with
  | nil =>
    intro n inb
    constructor
    · intro inb' rest copies h
      match n with
      | 0 =>
        simp only [NetworkPlayground.wait_for_messages,
          NetworkPlayground.DrainOutcome.done.injEq] at h
        obtain ⟨rfl, rfl, -⟩ := h
        exact ⟨[], rfl, fun dst l hl => by simpa [deliveredTo] using hl⟩
      | Nat.succ m =>
        simp only [NetworkPlayground.wait_for_messages] at h
        cases h
    · intro inb' copies h
      match n with
      | 0 =>
        simp only [NetworkPlayground.wait_for_messages] at h
        cases h
      | Nat.succ m =>
        simp only [NetworkPlayground.wait_for_messages,
          NetworkPlayground.DrainOutcome.pending.injEq] at h
        obtain ⟨rfl, -⟩ := h
        intro dst l hl
        simpa [deliveredTo] using hl
  | cons item tail ih =>
    obtain ⟨src, req⟩ := item
    intro n inb
    constructor
    · intro inb' rest copies h
      match n with
      | 0 =>
        simp only [NetworkPlayground.wait_for_messages,
          NetworkPlayground.DrainOutcome.done.injEq] at h
        obtain ⟨rfl, rfl, -⟩ := h
        exact ⟨[], rfl, fun dst l hl => by simpa [deliveredTo] using hl⟩
      | Nat.succ m =>
        simp only [NetworkPlayground.wait_for_messages] at h
        cases hdrop : DropConfig.is_message_dropped cfg src req with
        | error e => rw [hdrop] at h; cases h
        | ok b =>
          rw [hdrop] at h
          cases b with
          | true =>
            obtain ⟨q1, hq1, heff⟩ := (ih (m + 1) inb).1 inb' rest copies h
            refine ⟨(src, req) :: q1, by simp [hq1], fun dst l hl => ?_⟩
            rw [deliveredTo_cons_dropped cfg dst src req q1 hdrop]
            exact heff dst l hl
          | false =>
            cases hdel : NetworkPlayground.deliver_message inb src req with
            | error e => rw [hdel] at h; cases h
            | ok r =>
              obtain ⟨inb2, msg_copy⟩ := r
              rw [hdel] at h
              dsimp only at h
              obtain ⟨d, mmsg, l0, rfl, hld, rfl, rfl⟩ :=
                deliver_message_ok_inv inb src req inb2 msg_copy hdel
              have hb := dropped_send_eq_droppedB cfg src d mmsg false hdrop
              by_cases hp : pred (src, mmsg) = true
              · rw [if_pos hp] at h
                cases hrec : NetworkPlayground.wait_for_messages cfg pred m
                    (inb.update d (fun q => q ++ [NetworkNotification.RecvMessage src mmsg]))
                    tail with
                | done inb3 rest3 cs =>
                  rw [hrec] at h
                  simp only [NetworkPlayground.DrainOutcome.done.injEq] at h
                  obtain ⟨rfl, rfl, -⟩ := h
                  obtain ⟨q1, hq1, heff⟩ := (ih m _).1 inb3 rest3 cs hrec
                  exact ⟨(src, NetworkRequest.SendMessage d mmsg) :: q1, by simp [hq1],
                    lookup_after_update_step cfg inb inb3 src d mmsg q1 hb heff⟩
                | pending inb3 cs => rw [hrec] at h; cases h
                | panicked e => rw [hrec] at h; cases h
              · rw [if_neg hp] at h
                obtain ⟨q1, hq1, heff⟩ := (ih (m + 1) _).1 inb' rest copies h
                exact ⟨(src, NetworkRequest.SendMessage d mmsg) :: q1, by simp [hq1],
                  lookup_after_update_step cfg inb inb' src d mmsg q1 hb heff⟩
    · intro inb' copies h
      match n with
      | 0 =>
        simp only [NetworkPlayground.wait_for_messages] at h
        cases h
      | Nat.succ m =>
        simp only [NetworkPlayground.wait_for_messages] at h
        cases hdrop : DropConfig.is_message_dropped cfg src req with
        | error e => rw [hdrop] at h; cases h
        | ok b =>
          rw [hdrop] at h
          cases b with
          | true =>
            intro dst l hl
            rw [deliveredTo_cons_dropped cfg dst src req tail hdrop]
            exact (ih (m + 1) inb).2 inb' copies h dst l hl
          | false =>
            cases hdel : NetworkPlayground.deliver_message inb src req with
            | error e => rw [hdel] at h; cases h
            | ok r =>
              obtain ⟨inb2, msg_copy⟩ := r
              rw [hdel] at h
              dsimp only at h
              obtain ⟨d, mmsg, l0, rfl, hld, rfl, rfl⟩ :=
                deliver_message_ok_inv inb src req inb2 msg_copy hdel
              have hb := dropped_send_eq_droppedB cfg src d mmsg false hdrop
              by_cases hp : pred (src, mmsg) = true
              · rw [if_pos hp] at h
                cases hrec : NetworkPlayground.wait_for_messages cfg pred m
                    (inb.update d (fun q => q ++ [NetworkNotification.RecvMessage src mmsg]))
                    tail with
                | done inb3 rest3 cs => rw [hrec] at h; cases h
                | pending inb3 cs =>
                  rw [hrec] at h
                  simp only [NetworkPlayground.DrainOutcome.pending.injEq] at h
                  obtain ⟨rfl, -⟩ := h
                  exact lookup_after_update_step cfg inb inb3 src d mmsg tail hb
                    ((ih m _).2 inb3 cs hrec)
                | panicked e => rw [hrec] at h; cases h
              · rw [if_neg hp] at h
                exact lookup_after_update_step cfg inb inb' src d mmsg tail hb
                  ((ih (m + 1) _).2 inb' copies h)

/-- C6: for every source, direct-sends are pushed onto the shared
ordered buffer in send order (the outbound handler appends each one at
the tail), and a drain that processes the whole buffer appends to every
destination exactly the non-dropped direct-sends addressed to it, in
buffer order; hence messages from the same source to the same
destination are delivered FIFO, and nothing beyond arrival order in the
shared queue relates different sources. -/
theorem direct_send_fifo_order (cfg : DropConfig) (pred : Author × ConsensusMsg → Bool) :
    (∀ (inb : Inbound) (buffer : List (Author × NetworkRequest)) (src d : Author)
       (m : ConsensusMsg) (s : List Author),
      cfg.lookup src = some s →
      NetworkPlayground.handle_outbound cfg inb buffer src (.SendMessage d m) =
        .ok (inb, buffer ++ [(src, NetworkRequest.SendMessage d m)])) ∧
    (∀ (queue : List (Author × NetworkRequest)) (n : Nat) (inb inb' : Inbound)
       (copies : List (Author × ConsensusMsg)),
      NetworkPlayground.wait_for_messages cfg pred n inb queue = .pending inb' copies →
      ∀ dst l, inb.lookup dst = some l →
        inb'.lookup dst = some (l ++ deliveredTo cfg dst queue)) := by
  constructor
  · intro inb buffer src d m s hreg
    simp [NetworkPlayground.handle_outbound, DropConfig.is_message_dropped, hreg]
  · intro queue n inb inb' copies h
    exact (wait_for_messages_inbound_effect cfg pred queue n inb).2 inb' copies h

/-- Witness for C6: a direct-send from registered source 0 is appended
at the tail of the shared buffer. -/
theorem direct_send_fifo_order_witness :
    AssocMap.lookup [(0, ([] : List Author))] 0 = some [] ∧
    NetworkPlayground.handle_outbound [(0, ([] : List Author))]
        [((0 : Author), ([] : List NetworkNotification))] []
        0 (NetworkRequest.SendMessage 0 (ConsensusMsg.Vote 3)) =
      .ok ([((0 : Author), ([] : List NetworkNotification))],
        [(0, NetworkRequest.SendMessage 0 (ConsensusMsg.Vote 3))]) :=
  ⟨by decide,
   (direct_send_fifo_order [(0, [])] NetworkPlayground.take_all).1
     [(0, [])] [] 0 0 (ConsensusMsg.Vote 3) [] (by decide)⟩

theorem deliveredTo_filter_dropped (cfg : DropConfig) (A B : Author)
    (h : droppedB cfg A B = true) :
    ∀ q, (deliveredTo cfg B q).filter (notifFrom A) = [] := by
  intro q
  induction q with
  | nil => rfl
  | cons p tl ih =>
    obtain ⟨src, req⟩ := p
    cases req with
    | SendMessage d m =>
      by_cases hd : d = B
      · subst hd
        cases hdr : droppedB cfg src d with
        | true =>
          have hskip : deliveredTo cfg d ((src, NetworkRequest.SendMessage d m) :: tl) =
              deliveredTo cfg d tl := by
            simp [deliveredTo, hdr]
          rw [hskip, ih]
        | false =>
          have hstep := deliveredTo_cons_send cfg d src d m tl hdr
          rw [if_pos rfl] at hstep
          rw [hstep]
          have hsrc : notifFrom A (NetworkNotification.RecvMessage src m) = false := by
            by_cases hs : src = A
            · subst hs
              rw [h] at hdr
              cases hdr
            · simp [notifFrom, hs]
          simp [List.filter_cons, hsrc, ih]
      · have hskip : deliveredTo cfg B ((src, NetworkRequest.SendMessage d m) :: tl) =
            deliveredTo cfg B tl := by
          simp [deliveredTo, hd]
        rw [hskip, ih]
    | SendRpc d r => simpa [deliveredTo] using ih
    | Broadcast m => simpa [deliveredTo] using ih

/-- C2: while `B` is in the drop set of `A`, an outbound RPC from `A`
addressed to `B` is silently discarded by the outbound handler of `A`
(no inbound queue and no buffer changes, so `B` never sees it), the
corresponding `request_block` call of `A` gets no response (a timeout),
and no drain — whether it completes or exhausts the buffer — ever adds a
notification from `A` to the inbound queue of `B`. -/
theorem drop_config_blocks_rpc_and_direct_send (cfg : DropConfig) (A B : Author)
    (s : List Author) (hreg : cfg.lookup A = some s) (hmem : s.contains B = true) :
    (∀ (inb : Inbound) (buffer : List (Author × NetworkRequest)) (r : OutboundRpcRequest),
      NetworkPlayground.handle_outbound cfg inb buffer A (.SendRpc B r) = .ok (inb, buffer)) ∧
    (∀ (inb : Inbound) (r : OutboundRpcRequest)
       (responder : InboundRpcRequest → BlockRetrievalResponse),
      request_block_sim cfg inb A B r responder = .ok .timeout) ∧
    (∀ (pred : Author × ConsensusMsg → Bool) (queue : List (Author × NetworkRequest))
       (n : Nat) (inb inb' : Inbound) (rest : List (Author × NetworkRequest))
       (copies : List (Author × ConsensusMsg)),
      NetworkPlayground.wait_for_messages cfg pred n inb queue = .done inb' rest copies →
      ∀ l, inb.lookup B = some l →
        ∃ l', inb'.lookup B = some l' ∧ l'.filter (notifFrom A) = l.filter (notifFrom A)) ∧
    (∀ (pred : Author × ConsensusMsg → Bool) (queue : List (Author × NetworkRequest))
       (n : Nat) (inb inb' : Inbound) (copies : List (Author × ConsensusMsg)),
      NetworkPlayground.wait_for_messages cfg pred n inb queue = .pending inb' copies →
      ∀ l, inb.lookup B = some l →
        ∃ l', inb'.lookup B = some l' ∧ l'.filter (notifFrom A) = l.filter (notifFrom A)) := by
  have hdropped : droppedB cfg A B = true := by
    simpa [droppedB, hreg] using hmem
  have hA : ∀ (inb : Inbound) (buffer : List (Author × NetworkRequest))
      (r : OutboundRpcRequest),
      NetworkPlayground.handle_outbound cfg inb buffer A (.SendRpc B r) = .ok (inb, buffer) := by
    intro inb buffer r
    have hmemP : B ∈ s := by simpa using hmem
    simp [NetworkPlayground.handle_outbound, DropConfig.is_message_dropped, hreg, hmemP]
  refine ⟨hA, ?_, ?_, ?_⟩
  · intro inb r responder
    unfold request_block_sim
    rw [hA inb [] r]
    dsimp only
    cases hB : inb.lookup B with
    | none => rfl
    | some old => simp [List.drop_length]
  · intro pred queue n inb inb' rest copies h l hl
    obtain ⟨q1, -, heff⟩ :=
      (wait_for_messages_inbound_effect cfg pred queue n inb).1 inb' rest copies h
    refine ⟨l ++ deliveredTo cfg B q1, heff B l hl, ?_⟩
    rw [List.filter_append, deliveredTo_filter_dropped cfg A B hdropped q1,
      List.append_nil]
  · intro pred queue n inb inb' copies h l hl
    refine ⟨l ++ deliveredTo cfg B queue,
      (wait_for_messages_inbound_effect cfg pred queue n inb).2 inb' copies h B l hl, ?_⟩
    rw [List.filter_append, deliveredTo_filter_dropped cfg A B hdropped queue,
      List.append_nil]

/-- Witness for C2: with 1 in the drop set of 0, the outbound handler
discards the RPC and the simulated `request_block` times out. -/
theorem drop_config_blocks_rpc_and_direct_send_witness :
    (AssocMap.lookup [(0, [1]), (1, ([] : List Author))] 0 = some [1] ∧
      ([1] : List Author).contains 1 = true) ∧
    NetworkPlayground.handle_outbound [(0, [1]), (1, [])]
        [((0 : Author), ([] : List NetworkNotification)),
         ((1 : Author), ([] : List NetworkNotification))] []
        0 (NetworkRequest.SendRpc 1 ⟨7, 8, 9⟩) =
      .ok ([((0 : Author), ([] : List NetworkNotification)),
            ((1 : Author), ([] : List NetworkNotification))], []) :=
  ⟨⟨by decide, by decide⟩,
   (drop_config_blocks_rpc_and_direct_send [(0, [1]), (1, [])] 0 1 [1]
       (by decide) (by decide)).1
     [(0, []), (1, [])] [] ⟨7, 8, 9⟩⟩

/-- C4: an RPC from a registered source to a registered, non-dropped
destination is translated immediately by the outbound handler — the
shared drain buffer is untouched — into an inbound `RecvRpc` at the
destination carrying the same protocol, data and response channel; and
the simulated `request_block` against a live peer whose retrieval
handler answers `SUCCEEDED` with blocks `ks` returns a response with
exactly those blocks in the order supplied. -/
theorem rpc_immediate_translation_and_round_trip (cfg : DropConfig) (src dst : Author)
    (s : List Author) (hreg : cfg.lookup src = some s) (hnd : s.contains dst = false) :
    (∀ (inb : Inbound) (buffer : List (Author × NetworkRequest)) (r : OutboundRpcRequest)
       (l : List NetworkNotification), inb.lookup dst = some l →
      NetworkPlayground.handle_outbound cfg inb buffer src (.SendRpc dst r) =
        .ok (inb.update dst (fun q => q ++
              [NetworkNotification.RecvRpc src ⟨r.protocol, r.data, r.res_tx⟩]), buffer)) ∧
    (∀ (inb : Inbound) (r : OutboundRpcRequest) (l : List NetworkNotification)
       (ks : List Nat), inb.lookup dst = some l →
      request_block_sim cfg inb src dst r
          (fun _ => ⟨BlockRetrievalStatus.SUCCEEDED, ks⟩) =
        .ok (.response ⟨BlockRetrievalStatus.SUCCEEDED, ks⟩)) := by
  have hA : ∀ (inb : Inbound) (buffer : List (Author × NetworkRequest))
      (r : OutboundRpcRequest) (l : List NetworkNotification), inb.lookup dst = some l →
      NetworkPlayground.handle_outbound cfg inb buffer src (.SendRpc dst r) =
        .ok (inb.update dst (fun q => q ++
              [NetworkNotification.RecvRpc src ⟨r.protocol, r.data, r.res_tx⟩]), buffer) := by
    intro inb buffer r l hl
    have hndP : dst ∉ s := by simpa using hnd
    simp [NetworkPlayground.handle_outbound, DropConfig.is_message_dropped, hreg, hndP, hl]
  refine ⟨hA, ?_⟩
  intro inb r l ks hl
  unfold request_block_sim
  rw [hA inb [] r l hl]
  have h2 : (inb.update dst (fun q => q ++
      [NetworkNotification.RecvRpc src ⟨r.protocol, r.data, r.res_tx⟩])).lookup dst =
      some (l ++ [NetworkNotification.RecvRpc src ⟨r.protocol, r.data, r.res_tx⟩]) := by
    rw [AssocMap.lookup_update_self, hl]
    rfl
  dsimp only
  rw [hl, h2]
  dsimp only
  rw [List.drop_left]

/-- Witness for C4: peers 0 and 1 registered with no drops; an RPC from
0 to 1 is translated immediately and a two-block retrieval round-trips. -/
theorem rpc_immediate_translation_and_round_trip_witness :
    (AssocMap.lookup [(0, ([] : List Author)), (1, [])] 0 = some [] ∧
      ([] : List Author).contains 1 = false ∧
      AssocMap.lookup [((0 : Author), ([] : List NetworkNotification)), (1, [])] 1 =
        some []) ∧
    request_block_sim [(0, []), (1, [])] [(0, []), (1, [])] 0 1 ⟨1, 2, 3⟩
        (fun _ => ⟨BlockRetrievalStatus.SUCCEEDED, [10, 20]⟩) =
      .ok (.response ⟨BlockRetrievalStatus.SUCCEEDED, [10, 20]⟩) :=
  ⟨⟨by decide, by decide, by decide⟩,
   (rpc_immediate_translation_and_round_trip [(0, []), (1, [])] 0 1 []
       (by decide) (by decide)).2
     [(0, []), (1, [])] ⟨1, 2, 3⟩ [] [10, 20] (by decide)⟩

theorem filter_ne_length_of_nodup (l : List Author) (a : Author)
    (h : l.Nodup) (hm : a ∈ l) :
    (l.filter (fun x => x ≠ a)).length = l.length - 1 := by
  have hf : (fun x : Author => (decide (x ≠ a) : Bool)) = (fun x => x != a) := by
    funext x
    simp only [ne_eq, decide_not]
    rfl
  show (l.filter (fun x => decide (x ≠ a))).length = l.length - 1
  rw [hf, ← List.Nodup.erase_eq_filter h a]
  exact List.length_erase_of_mem hm

/-- C3: in the five-validator scenario of `test_network_api` (all
registered, no drops), validator 0 sends a vote to validators 2, 3 and 4
and draining 3 accepted direct-sends with the accept-all predicate
leaves exactly one copy of that vote on the votes sequence of each of 2,
3 and 4; validator 4 then broadcasts a proposal and draining 4 accepted
direct-sends leaves exactly one copy of the proposal on the proposals
sequence of each of 0, 1, 2 and 3; and for every duplicate-free peer set
containing the broadcaster, a broadcast enqueues exactly `n - 1`
direct-send envelopes, none addressed to the broadcaster itself. -/
theorem five_validator_vote_and_broadcast :
    (∀ v p : Nat,
      NetworkPlayground.wait_for_messages cfgFive NetworkPlayground.take_all 3 inbFive
          (send_vote 0 v [2, 3, 4]) =
        .done [(0, []), (1, []),
               (2, [.RecvMessage 0 (.Vote v)]),
               (3, [.RecvMessage 0 (.Vote v)]),
               (4, [.RecvMessage 0 (.Vote v)])] []
          [(0, .Vote v), (0, .Vote v), (0, .Vote v)] ∧
      (votesOf [(0, []), (1, []),
                (2, [.RecvMessage 0 (.Vote v)]),
                (3, [.RecvMessage 0 (.Vote v)]),
                (4, [.RecvMessage 0 (.Vote v)])] 2 = [v] ∧
       votesOf [(0, []), (1, []),
                (2, [.RecvMessage 0 (.Vote v)]),
                (3, [.RecvMessage 0 (.Vote v)]),
                (4, [.RecvMessage 0 (.Vote v)])] 3 = [v] ∧
       votesOf [(0, []), (1, []),
                (2, [.RecvMessage 0 (.Vote v)]),
                (3, [.RecvMessage 0 (.Vote v)]),
                (4, [.RecvMessage 0 (.Vote v)])] 4 = [v]) ∧
      NetworkPlayground.wait_for_messages cfgFive NetworkPlayground.take_all 4
          [(0, []), (1, []),
           (2, [.RecvMessage 0 (.Vote v)]),
           (3, [.RecvMessage 0 (.Vote v)]),
           (4, [.RecvMessage 0 (.Vote v)])]
          (broadcast_proposal peersFive 4 p) =
        .done [(0, [.RecvMessage 4 (.Proposal p)]),
               (1, [.RecvMessage 4 (.Proposal p)]),
               (2, [.RecvMessage 0 (.Vote v), .RecvMessage 4 (.Proposal p)]),
               (3, [.RecvMessage 0 (.Vote v), .RecvMessage 4 (.Proposal p)]),
               (4, [.RecvMessage 0 (.Vote v)])] []
          [(4, .Proposal p), (4, .Proposal p), (4, .Proposal p), (4, .Proposal p)] ∧
      (proposalsOf [(0, [.RecvMessage 4 (.Proposal p)]),
                    (1, [.RecvMessage 4 (.Proposal p)]),
                    (2, [.RecvMessage 0 (.Vote v), .RecvMessage 4 (.Proposal p)]),
                    (3, [.RecvMessage 0 (.Vote v), .RecvMessage 4 (.Proposal p)]),
                    (4, [.RecvMessage 0 (.Vote v)])] 0 = [p] ∧
       proposalsOf [(0, [.RecvMessage 4 (.Proposal p)]),
                    (1, [.RecvMessage 4 (.Proposal p)]),
                    (2, [.RecvMessage 0 (.Vote v), .RecvMessage 4 (.Proposal p)]),
                    (3, [.RecvMessage 0 (.Vote v), .RecvMessage 4 (.Proposal p)]),
                    (4, [.RecvMessage 0 (.Vote v)])] 1 = [p] ∧
       proposalsOf [(0, [.RecvMessage 4 (.Proposal p)]),
                    (1, [.RecvMessage 4 (.Proposal p)]),
                    (2, [.RecvMessage 0 (.Vote v), .RecvMessage 4 (.Proposal p)]),
                    (3, [.RecvMessage 0 (.Vote v), .RecvMessage 4 (.Proposal p)]),
                    (4, [.RecvMessage 0 (.Vote v)])] 2 = [p] ∧
       proposalsOf [(0, [.RecvMessage 4 (.Proposal p)]),
                    (1, [.RecvMessage 4 (.Proposal p)]),
                    (2, [.RecvMessage 0 (.Vote v), .RecvMessage 4 (.Proposal p)]),
                    (3, [.RecvMessage 0 (.Vote v), .RecvMessage 4 (.Proposal p)]),
                    (4, [.RecvMessage 0 (.Vote v)])] 3 = [p])) ∧
    (∀ (peers : List Author) (sender : Author) (p : Nat),
      peers.Nodup → sender ∈ peers →
      (broadcast_proposal peers sender p).length = peers.length - 1 ∧
      ∀ x ∈ broadcast_proposal peers sender p,
        x.1 = sender ∧
          ∃ d, d ≠ sender ∧ x.2 = NetworkRequest.SendMessage d (ConsensusMsg.Proposal p)) := by
  constructor
  · intro v p
    exact ⟨rfl, ⟨rfl, rfl, rfl⟩, rfl, ⟨rfl, rfl, rfl, rfl⟩⟩
  · intro peers sender p hnd hmem
    constructor
    · rw [broadcast_proposal, List.length_map]
      exact filter_ne_length_of_nodup peers sender hnd hmem
    · intro x hx
      simp only [broadcast_proposal, List.mem_map] at hx
      obtain ⟨d, hd, rfl⟩ := hx
      refine ⟨rfl, d, ?_, rfl⟩
      have := List.of_mem_filter hd
      simpa using this

/-- Witness for C3: the broadcast shape at the concrete five-peer set. -/
theorem five_validator_vote_and_broadcast_witness :
    (peersFive.Nodup ∧ (4 : Author) ∈ peersFive) ∧
    (broadcast_proposal peersFive 4 9).length = peersFive.length - 1 :=
  ⟨⟨by decide, by decide⟩,
   (five_validator_vote_and_broadcast.2 peersFive 4 9 (by decide) (by decide)).1⟩

/-- C5 counterexample: a malformed envelope (a `NetworkRequest` variant
other than `SendMessage`) popped during a drain from a registered source
does not abort the harness: the wildcard arm of `is_message_dropped`
classifies it as dropped and the drain silently skips it, ending up
still awaiting a further message rather than panicking. -/
theorem malformed_envelope_drain_no_panic :
    NetworkPlayground.wait_for_messages cfgFive NetworkPlayground.take_all 1 inbFive
        [(0, NetworkRequest.Broadcast (ConsensusMsg.Vote 5))] =
      .pending inbFive [] ∧
    (NetworkPlayground.wait_for_messages cfgFive NetworkPlayground.take_all 1 inbFive
        [(0, NetworkRequest.Broadcast (ConsensusMsg.Vote 5))]).isPanic = false := by
  exact ⟨rfl, rfl⟩

/-- C5 (amended): of the envelopes popped during a drain, one matched
by the wildcard arm of `is_message_dropped` (a variant other than
`SendMessage` and `SendRpc`) is classified as dropped and silently
discarded — not delivered, not counted, no assertion, and this holds
even when the source is unregistered, because the wildcard arm never
consults the drop map; the fatal-assertion cases are a buffered
`SendRpc` whose (source, destination) pair is not drop-configured
(`deliver_message` panics on the unexpected variant) and a direct-send
whose destination is not a registered node (reached because an
unregistered destination is never in the drop set). -/
theorem drain_wildcard_skip_and_fatal_cases
    (cfg : DropConfig) (pred : Author × ConsensusMsg → Bool) (n : Nat) (inb : Inbound)
    (queue : List (Author × NetworkRequest)) (src : Author) :
    (∀ m : ConsensusMsg,
      NetworkPlayground.wait_for_messages cfg pred (n + 1) inb
          ((src, NetworkRequest.Broadcast m) :: queue) =
        NetworkPlayground.wait_for_messages cfg pred (n + 1) inb queue) ∧
    (∀ (s : List Author) (dst : Author) (m : ConsensusMsg),
      cfg.lookup src = some s → s.contains dst = false → inb.lookup dst = none →
      NetworkPlayground.wait_for_messages cfg pred (n + 1) inb
          ((src, NetworkRequest.SendMessage dst m) :: queue) =
        .panicked "unwrap on consensus tx of unregistered destination") ∧
    (∀ (s : List Author) (dst : Author) (r : OutboundRpcRequest),
      cfg.lookup src = some s → s.contains dst = false →
      NetworkPlayground.wait_for_messages cfg pred (n + 1) inb
          ((src, NetworkRequest.SendRpc dst r) :: queue) =
        .panicked "unexpected NetworkRequest") := by
  refine ⟨?_, ?_, ?_⟩
  · intro m
    simp only [NetworkPlayground.wait_for_messages]
    have hdrop : DropConfig.is_message_dropped cfg src (.Broadcast m) = .ok true := rfl
    rw [hdrop]
  · intro s dst m hreg hnd hun
    simp only [NetworkPlayground.wait_for_messages]
    have hndP : dst ∉ s := by simpa using hnd
    have hdrop : DropConfig.is_message_dropped cfg src (.SendMessage dst m) = .ok false := by
      simp [DropConfig.is_message_dropped, hreg, hndP]
    rw [hdrop]
    have hdel : NetworkPlayground.deliver_message inb src (.SendMessage dst m) =
        .error "unwrap on consensus tx of unregistered destination" := by
      simp [NetworkPlayground.deliver_message, hun]
    rw [hdel]
  · intro s dst r hreg hnd
    simp only [NetworkPlayground.wait_for_messages]
    have hndP : dst ∉ s := by simpa using hnd
    have hdrop : DropConfig.is_message_dropped cfg src (.SendRpc dst r) = .ok false := by
      simp [DropConfig.is_message_dropped, hreg, hndP]
    rw [hdrop]
    have hdel : NetworkPlayground.deliver_message inb src (.SendRpc dst r) =
        .error "unexpected NetworkRequest" := rfl
    rw [hdel]

/-- Witness for C5 (amended): destination 1 is not registered in a
one-node playground, so draining a direct-send to it panics. -/
theorem drain_wildcard_skip_and_fatal_cases_witness :
    (AssocMap.lookup [(0, ([] : List Author))] 0 = some [] ∧
      ([] : List Author).contains 1 = false ∧
      AssocMap.lookup [((0 : Author), ([] : List NetworkNotification))] 1 = none) ∧
    NetworkPlayground.wait_for_messages [(0, [])] NetworkPlayground.take_all 1 [(0, [])]
        [(0, NetworkRequest.SendMessage 1 (ConsensusMsg.Vote 2))] =
      .panicked "unwrap on consensus tx of unregistered destination" :=
  ⟨⟨by decide, by decide, by decide⟩,
   (drain_wildcard_skip_and_fatal_cases [(0, [])] NetworkPlayground.take_all 0
       [(0, [])] [] 0).2.1 [] 1 (ConsensusMsg.Vote 2) (by decide) (by decide) (by decide)⟩

/-! ## Generator lemmas -/

theorem getElem?_some_lt {α : Type} (l : List α) (i : Nat) (a : α)
    (h : l[i]? = some a) : i < l.length := by
  by_contra hc
  push_neg at hc
  rw [List.getElem?_eq_none hc] at h
  cases h

theorem new_raw_transaction_fields (sender sequence_number : Nat)
    (payload : TransactionPayload) (mg gp ex : Nat) :
    (new_raw_transaction sender sequence_number payload mg gp ex).sequence_number =
        sequence_number ∧
      (new_raw_transaction sender sequence_number payload mg gp ex).sender = sender := by
  cases payload <;> exact ⟨rfl, rfl⟩

theorem raw_materialize_inv (g : RawTransactionGen) (i : Nat) (u : AccountInfoUniverse)
    (txn : RawTransaction) (u' : AccountInfoUniverse)
    (h : g.materialize i u = some (txn, u')) :
    ∃ acc, u.get_account_info i = some acc ∧
      txn = new_raw_transaction acc.address acc.sequence_number g.payload
        g.max_gas_amount g.gas_unit_price g.expiration_time_secs ∧
      u' = u.set_account_info i { acc with sequence_number := acc.sequence_number + 1 } := by
  unfold RawTransactionGen.materialize at h
  cases hacc : u.get_account_info i with
  | none => rw [hacc] at h; cases h
  | some acc =>
    rw [hacc] at h
    dsimp only at h
    simp only [Option.some.injEq, Prod.mk.injEq] at h
    exact ⟨acc, rfl, h.1.symm, h.2.symm⟩

/-- C9: `RawTransactionGen::materialize` builds the raw transaction from
the sequence number of the sender before the call, increments exactly
that sequence number in the universe, and leaves every other account —
and the address, keys and event handles of the sender — unchanged. -/
theorem raw_transaction_gen_materialize_frame (g : RawTransactionGen) (i : Nat)
    (u : AccountInfoUniverse) (txn : RawTransaction) (u' : AccountInfoUniverse)
    (h : g.materialize i u = some (txn, u')) :
    ∃ acc, u.accounts[u.slot i]? = some acc ∧
      txn.sequence_number = acc.sequence_number ∧
      txn.sender = acc.address ∧
      u'.accounts.length = u.accounts.length ∧
      u'.accounts[u.slot i]? = some { acc with sequence_number := acc.sequence_number + 1 } ∧
      (∀ j, j ≠ u.slot i → u'.accounts[j]? = u.accounts[j]?) := by
  obtain ⟨acc, hacc, htxn, hu⟩ := raw_materialize_inv g i u txn u' h
  have hlt : u.slot i < u.accounts.length := getElem?_some_lt _ _ _ hacc
  subst hu
  subst htxn
  refine ⟨acc, hacc, (new_raw_transaction_fields _ _ _ _ _ _).1,
    (new_raw_transaction_fields _ _ _ _ _ _).2, ?_, ?_, ?_⟩
  · simp [AccountInfoUniverse.set_account_info]
  · simp [AccountInfoUniverse.set_account_info, List.getElem?_set, hlt]
  · intro j hj
    simp [AccountInfoUniverse.set_account_info, List.getElem?_set, Ne.symm hj]

/-- Witness for C9: a one-account universe; the materialized transaction
captures sequence number 5 and the account moves to 6. -/
theorem raw_transaction_gen_materialize_frame_witness :
    (RawTransactionGen.materialize ⟨.Program 1, 2, 3, 4⟩ 0
        ⟨[⟨10, 1, 2, 5, ⟨(10, 0), 0⟩, ⟨(10, 1), 1⟩⟩]⟩ =
      some (⟨10, 5, .Program 1, 2, 3, 4⟩,
        ⟨[⟨10, 1, 2, 6, ⟨(10, 0), 0⟩, ⟨(10, 1), 1⟩⟩]⟩)) ∧
    (∃ acc, (⟨[⟨10, 1, 2, 5, ⟨(10, 0), 0⟩, ⟨(10, 1), 1⟩⟩]⟩ :
          AccountInfoUniverse).accounts[(⟨[⟨10, 1, 2, 5, ⟨(10, 0), 0⟩, ⟨(10, 1), 1⟩⟩]⟩ :
          AccountInfoUniverse).slot 0]? = some acc ∧
      (⟨10, 5, .Program 1, 2, 3, 4⟩ : RawTransaction).sequence_number =
        acc.sequence_number ∧
      (⟨10, 5, .Program 1, 2, 3, 4⟩ : RawTransaction).sender = acc.address ∧
      (⟨[⟨10, 1, 2, 6, ⟨(10, 0), 0⟩, ⟨(10, 1), 1⟩⟩]⟩ :
          AccountInfoUniverse).accounts.length =
        (⟨[⟨10, 1, 2, 5, ⟨(10, 0), 0⟩, ⟨(10, 1), 1⟩⟩]⟩ :
          AccountInfoUniverse).accounts.length ∧
      (⟨[⟨10, 1, 2, 6, ⟨(10, 0), 0⟩, ⟨(10, 1), 1⟩⟩]⟩ :
          AccountInfoUniverse).accounts[(⟨[⟨10, 1, 2, 5, ⟨(10, 0), 0⟩, ⟨(10, 1), 1⟩⟩]⟩ :
          AccountInfoUniverse).slot 0]? =
        some { acc with sequence_number := acc.sequence_number + 1 } ∧
      (∀ j, j ≠ (⟨[⟨10, 1, 2, 5, ⟨(10, 0), 0⟩, ⟨(10, 1), 1⟩⟩]⟩ :
          AccountInfoUniverse).slot 0 →
        (⟨[⟨10, 1, 2, 6, ⟨(10, 0), 0⟩, ⟨(10, 1), 1⟩⟩]⟩ :
            AccountInfoUniverse).accounts[j]? =
          (⟨[⟨10, 1, 2, 5, ⟨(10, 0), 0⟩, ⟨(10, 1), 1⟩⟩]⟩ :
            AccountInfoUniverse).accounts[j]?)) :=
  ⟨by decide,
   raw_transaction_gen_materialize_frame ⟨.Program 1, 2, 3, 4⟩ 0
     ⟨[⟨10, 1, 2, 5, ⟨(10, 0), 0⟩, ⟨(10, 1), 1⟩⟩]⟩
     ⟨10, 5, .Program 1, 2, 3, 4⟩
     ⟨[⟨10, 1, 2, 6, ⟨(10, 0), 0⟩, ⟨(10, 1), 1⟩⟩]⟩ (by decide)⟩

/-- C10: for a `WriteSet` payload, `new_raw_transaction` ignores the
generated `max_gas_amount`, `gas_unit_price` and `expiration_time_secs`
(the `WriteSet` arm forwards only sender, sequence number and write
set), and hence `RawTransactionGen::materialize` with a `WriteSet`
payload is independent of those three generated fields. -/
theorem write_set_txn_gas_independent :
    (∀ (sender seq ws g1 p1 e1 g2 p2 e2 : Nat),
      new_raw_transaction sender seq (.WriteSet ws) g1 p1 e1 =
        new_raw_transaction sender seq (.WriteSet ws) g2 p2 e2) ∧
    (∀ (ws g1 p1 e1 g2 p2 e2 i : Nat) (u : AccountInfoUniverse),
      RawTransactionGen.materialize ⟨.WriteSet ws, g1, p1, e1⟩ i u =
        RawTransactionGen.materialize ⟨.WriteSet ws, g2, p2, e2⟩ i u) := by
  constructor
  · intro sender seq ws g1 p1 e1 g2 p2 e2
    rfl
  · intro ws g1 p1 e1 g2 p2 e2 i u
    unfold RawTransactionGen.materialize
    cases hacc : u.get_account_info i with
    | none => rfl
    | some acc => rfl

theorem sentEmits_cons (i : Nat) (g : ContractEventGen)
    (tl : List (Nat × ContractEventGen)) (len k : Nat) :
    sentEmits ((i, g) :: tl) len k =
      sentEmits tl len k + (if i % len = k ∧ g.use_sent_key = true then 1 else 0) := by
  simp only [sentEmits, List.filter_cons]
  by_cases h1 : i % len = k
  · by_cases h2 : g.use_sent_key = true
    · simp [h1, h2]
    · simp [h1, h2]
  · simp [h1]

theorem recvEmits_cons (i : Nat) (g : ContractEventGen)
    (tl : List (Nat × ContractEventGen)) (len k : Nat) :
    recvEmits ((i, g) :: tl) len k =
      recvEmits tl len k + (if i % len = k ∧ g.use_sent_key = false then 1 else 0) := by
  simp only [recvEmits, List.filter_cons]
  by_cases h1 : i % len = k
  · by_cases h2 : g.use_sent_key = true
    · simp [h1, h2]
    · simp [h1, h2]
  · simp [h1]

theorem contract_event_materialize_inv (g : ContractEventGen) (i : Nat)
    (u : AccountInfoUniverse) (e : ContractEvent) (u1 : AccountInfoUniverse)
    (h : g.materialize i u = some (e, u1)) :
    ∃ acc, u.get_account_info i = some acc ∧
      ((g.use_sent_key = true ∧
        e = ⟨acc.sent_event_handle.key, acc.sent_event_handle.count, g.payload⟩ ∧
        u1 = u.set_account_info i { acc with
          sent_event_handle := { acc.sent_event_handle with
            count := acc.sent_event_handle.count + 1 } }) ∨
       (g.use_sent_key = false ∧
        e = ⟨acc.received_event_handle.key, acc.received_event_handle.count, g.payload⟩ ∧
        u1 = u.set_account_info i { acc with
          received_event_handle := { acc.received_event_handle with
            count := acc.received_event_handle.count + 1 } })) := by
  unfold ContractEventGen.materialize at h
  cases hacc : u.get_account_info i with
  | none => rw [hacc] at h; cases h
  | some acc =>
    rw [hacc] at h
    dsimp only at h
    by_cases hu : g.use_sent_key = true
    · rw [if_pos hu] at h
      simp only [Option.some.injEq, Prod.mk.injEq] at h
      exact ⟨acc, rfl, .inl ⟨hu, h.1.symm, h.2.symm⟩⟩
    · rw [if_neg hu] at h
      simp only [Option.some.injEq, Prod.mk.injEq] at h
      exact ⟨acc, rfl, .inr ⟨Bool.not_eq_true _ ▸ hu, h.1.symm, h.2.symm⟩⟩

theorem set_account_info_length (u : AccountInfoUniverse) (i : Nat) (acc : AccountInfo) :
    (u.set_account_info i acc).accounts.length = u.accounts.length := by
  simp [AccountInfoUniverse.set_account_info]

/-- Field-level effect of materializing a list of event intents: every
account keeps its address, keys and sequence number, its event-handle
keys are unchanged, and each handle counter advances by the number of
events the intents emit on it. -/
theorem materializeEvents_effect :
    ∀ (egs : List (Nat × ContractEventGen)) (u : AccountInfoUniverse)
      (es : List ContractEvent) (u' : AccountInfoUniverse),
      materializeEvents egs u = some (es, u') →
      u'.accounts.length = u.accounts.length ∧
      ∀ k acc, u.accounts[k]? = some acc →
        ∃ acc', u'.accounts[k]? = some acc' ∧
          acc'.address = acc.address ∧
          acc'.private_key = acc.private_key ∧
          acc'.public_key = acc.public_key ∧
          acc'.sequence_number = acc.sequence_number ∧
          acc'.sent_event_handle.key = acc.sent_event_handle.key ∧
          acc'.sent_event_handle.count =
            acc.sent_event_handle.count + sentEmits egs u.accounts.length k ∧
          acc'.received_event_handle.key = acc.received_event_handle.key ∧
          acc'.received_event_handle.count =
            acc.received_event_handle.count + recvEmits egs u.accounts.length k := by
  intro egs
  induction egs with
  | nil =>
    intro u es u' h
    simp only [materializeEvents, Option.some.injEq, Prod.mk.injEq] at h
    obtain ⟨-, rfl⟩ := h
    exact ⟨rfl, fun k acc hacc =>
      ⟨acc, hacc, rfl, rfl, rfl, rfl, rfl, by simp [sentEmits], rfl, by simp [recvEmits]⟩⟩
  | cons hd tl ih =>
    obtain ⟨i, g⟩ := hd
    intro u es u' h
    simp only [materializeEvents] at h
    cases hm : g.materialize i u with
    | none => rw [hm] at h; cases h
    | some r =>
      obtain ⟨e0, u1⟩ := r
      rw [hm] at h
      dsimp only at h
      cases hrest : materializeEvents tl u1 with
      | none => rw [hrest] at h; cases h
      | some r2 =>
        obtain ⟨es', u2⟩ := r2
        rw [hrest] at h
        dsimp only at h
        simp only [Option.some.injEq, Prod.mk.injEq] at h
        obtain ⟨-, rfl⟩ := h
        obtain ⟨acc0, hacc0, hcase⟩ := contract_event_materialize_inv g i u e0 u1 hm
        have hlt : u.slot i < u.accounts.length := getElem?_some_lt _ _ _ hacc0
        rcases hcase with ⟨hu, -, rfl⟩ | ⟨hu, -, rfl⟩
        all_goals (
          obtain ⟨hlen1, heff1⟩ := ih (u.set_account_info i _) es' _ hrest
          refine ⟨by rw [hlen1, set_account_info_length], ?_⟩
          intro k acc hacc
          by_cases hk : k = u.slot i)
        -- sent-handle event, k = slot
        · subst hk
          have haccacc0 : acc = acc0 := by
            rw [AccountInfoUniverse.get_account_info] at hacc0
            rw [hacc0] at hacc
            exact (Option.some.inj hacc).symm
          subst haccacc0
          have hu1k : (u.set_account_info i { acc with
              sent_event_handle := { acc.sent_event_handle with
                count := acc.sent_event_handle.count + 1 } }).accounts[u.slot i]? =
              some { acc with
                sent_event_handle := { acc.sent_event_handle with
                  count := acc.sent_event_handle.count + 1 } } := by
            simp [AccountInfoUniverse.set_account_info, List.getElem?_set, hlt]
          obtain ⟨acc', hacc', f1, f2, f3, f4, f5, f6, f7, f8⟩ := heff1 (u.slot i) _ hu1k
          rw [set_account_info_length] at f6 f8
          refine ⟨acc', hacc', f1, f2, f3, f4, f5, ?_, f7, ?_⟩
          · rw [f6, sentEmits_cons]
            simp only [AccountInfoUniverse.slot]
            simp [hu]
            omega
          · rw [f8, recvEmits_cons]
            simp only [AccountInfoUniverse.slot]
            simp [hu]
        -- sent-handle event, k ≠ slot
        · have hu1k : (u.set_account_info i { acc0 with
              sent_event_handle := { acc0.sent_event_handle with
                count := acc0.sent_event_handle.count + 1 } }).accounts[k]? = some acc := by
            simp only [AccountInfoUniverse.set_account_info]
            rw [List.getElem?_set]
            simp [Ne.symm hk, hacc]
          obtain ⟨acc', hacc', f1, f2, f3, f4, f5, f6, f7, f8⟩ := heff1 k _ hu1k
          rw [set_account_info_length] at f6 f8
          refine ⟨acc', hacc', f1, f2, f3, f4, f5, ?_, f7, ?_⟩
          · rw [f6, sentEmits_cons]
            have : ¬(i % u.accounts.length = k ∧ g.use_sent_key = true) := by
              rintro ⟨h1, -⟩
              exact hk (h1.symm)
            simp [this]
          · rw [f8, recvEmits_cons]
            have : ¬(i % u.accounts.length = k ∧ g.use_sent_key = false) := by
              rintro ⟨h1, -⟩
              exact hk (h1.symm)
            simp [this]
        -- received-handle event, k = slot
        · subst hk
          have haccacc0 : acc = acc0 := by
            rw [AccountInfoUniverse.get_account_info] at hacc0
            rw [hacc0] at hacc
            exact (Option.some.inj hacc).symm
          subst haccacc0
          have hu1k : (u.set_account_info i { acc with
              received_event_handle := { acc.received_event_handle with
                count := acc.received_event_handle.count + 1 } }).accounts[u.slot i]? =
              some { acc with
                received_event_handle := { acc.received_event_handle with
                  count := acc.received_event_handle.count + 1 } } := by
            simp [AccountInfoUniverse.set_account_info, List.getElem?_set, hlt]
          obtain ⟨acc', hacc', f1, f2, f3, f4, f5, f6, f7, f8⟩ := heff1 (u.slot i) _ hu1k
          rw [set_account_info_length] at f6 f8
          refine ⟨acc', hacc', f1, f2, f3, f4, f5, ?_, f7, ?_⟩
          · rw [f6, sentEmits_cons]
            simp only [AccountInfoUniverse.slot]
            simp [hu]
          · rw [f8, recvEmits_cons]
            simp only [AccountInfoUniverse.slot]
            simp [hu]
            omega
        -- received-handle event, k ≠ slot
        · have hu1k : (u.set_account_info i { acc0 with
              received_event_handle := { acc0.received_event_handle with
                count := acc0.received_event_handle.count + 1 } }).accounts[k]? =
              some acc := by
            simp only [AccountInfoUniverse.set_account_info]
            rw [List.getElem?_set]
            simp [Ne.symm hk, hacc]
          obtain ⟨acc', hacc', f1, f2, f3, f4, f5, f6, f7, f8⟩ := heff1 k _ hu1k
          rw [set_account_info_length] at f6 f8
          refine ⟨acc', hacc', f1, f2, f3, f4, f5, ?_, f7, ?_⟩
          · rw [f6, sentEmits_cons]
            have : ¬(i % u.accounts.length = k ∧ g.use_sent_key = true) := by
              rintro ⟨h1, -⟩
              exact hk (h1.symm)
            simp [this]
          · rw [f8, recvEmits_cons]
            have : ¬(i % u.accounts.length = k ∧ g.use_sent_key = false) := by
              rintro ⟨h1, -⟩
              exact hk (h1.symm)
            simp [this]

theorem blob_materialize_inv (bg : AccountStateBlobGen) (i : Nat) (u : AccountInfoUniverse)
    (blob : AccountStateBlob) (h : bg.materialize i u = some blob) :
    ∃ acc, u.get_account_info i = some acc ∧
      blob = ⟨⟨bg.account_resource_gen.balance, acc.sequence_number, acc.public_key,
        bg.account_resource_gen.delegated_key_rotation_capability,
        bg.account_resource_gen.delegated_withdrawal_capability,
        acc.sent_event_handle, acc.received_event_handle⟩⟩ := by
  unfold AccountStateBlobGen.materialize AccountResourceGen.materialize at h
  cases hacc : u.get_account_info i with
  | none => rw [hacc] at h; cases h
  | some acc =>
    rw [hacc] at h
    dsimp only at h
    simp only [Option.some.injEq] at h
    exact ⟨acc, rfl, h.symm⟩

/-- Pointwise content of the materialized account-state snapshots: entry
`idx` pairs the address of the account resolved by intent `idx` with a
blob holding that account's current sequence number, public key and
event handles. -/
theorem materializeStates_pointwise :
    ∀ (gens : List (Nat × AccountStateBlobGen)) (u : AccountInfoUniverse)
      (sts : List (Nat × AccountStateBlob)),
      materializeStates gens u = some sts →
      sts.length = gens.length ∧
      ∀ (idx i : Nat) (bg : AccountStateBlobGen), gens[idx]? = some (i, bg) →
        ∃ acc, u.get_account_info i = some acc ∧
          sts[idx]? = some (acc.address,
            (⟨⟨bg.account_resource_gen.balance, acc.sequence_number, acc.public_key,
              bg.account_resource_gen.delegated_key_rotation_capability,
              bg.account_resource_gen.delegated_withdrawal_capability,
              acc.sent_event_handle, acc.received_event_handle⟩⟩ : AccountStateBlob)) := by
  intro gens
  induction gens with
  | nil =>
    intro u sts h
    simp only [materializeStates, Option.some.injEq] at h
    subst h
    refine ⟨rfl, ?_⟩
    intro idx i bg hidx
    simp at hidx
  | cons hd tl ih =>
    obtain ⟨i0, bg0⟩ := hd
    intro u sts h
    simp only [materializeStates] at h
    cases hacc : u.get_account_info i0 with
    | none => rw [hacc] at h; cases h
    | some acc0 =>
      rw [hacc] at h
      cases hblob : bg0.materialize i0 u with
      | none => rw [hblob] at h; cases h
      | some blob0 =>
        rw [hblob] at h
        dsimp only at h
        cases hrest : materializeStates tl u with
        | none => rw [hrest] at h; cases h
        | some sts' =>
          rw [hrest] at h
          dsimp only at h
          simp only [Option.some.injEq] at h
          subst h
          obtain ⟨hlen, hpt⟩ := ih u sts' hrest
          constructor
          · simp [hlen]
          · intro idx i bg hidx
            cases idx with
            | zero =>
              simp only [List.getElem?_cons_zero, Option.some.injEq, Prod.mk.injEq] at hidx
              obtain ⟨rfl, rfl⟩ := hidx
              obtain ⟨acc, hacc2, hblobeq⟩ := blob_materialize_inv bg0 i0 u blob0 hblob
              rw [hacc] at hacc2
              obtain rfl := (Option.some.inj hacc2).symm
              refine ⟨acc, hacc, ?_⟩
              simp [hblobeq]
            | succ idx' =>
              simp only [List.getElem?_cons_succ] at hidx
              obtain ⟨acc, hacc2, hsts⟩ := hpt idx' i bg hidx
              exact ⟨acc, hacc2, by simpa using hsts⟩

theorem sct_materialize_inv (g : SignatureCheckedTransactionGen) (i : Nat)
    (u : AccountInfoUniverse) (ct : SignatureCheckedTransaction) (u1 : AccountInfoUniverse)
    (h : g.materialize i u = some (ct, u1)) :
    ∃ raw acc', g.raw_transaction_gen.materialize i u = some (raw, u1) ∧
      u1.get_account_info i = some acc' ∧
      ct = raw.sign acc'.private_key acc'.public_key := by
  unfold SignatureCheckedTransactionGen.materialize at h
  cases hm : g.raw_transaction_gen.materialize i u with
  | none => rw [hm] at h; cases h
  | some r =>
    obtain ⟨raw, u1'⟩ := r
    rw [hm] at h
    dsimp only at h
    cases hacc : u1'.get_account_info i with
    | none => rw [hacc] at h; cases h
    | some acc' =>
      rw [hacc] at h
      dsimp only at h
      simp only [Option.some.injEq, Prod.mk.injEq] at h
      obtain ⟨rfl, rfl⟩ := h
      exact ⟨raw, acc', rfl, hacc, rfl⟩

/-- C8: `TransactionToCommitGen::materialize` resolves its intents in
the fixed order sender-transaction first (capturing and then advancing
the sender's sequence number), event emitters next (advancing their
event-handle counts), touched-account state snapshots last: the final
universe carries the sender's incremented sequence number and the
advanced handle counts, and every account-state blob is materialized
against that final universe, so each blob records the post-transaction
sequence number and event counts of its account. -/
theorem transaction_to_commit_materialize_order (g : TransactionToCommitGen)
    (u : AccountInfoUniverse) (tc : TransactionToCommit) (u' : AccountInfoUniverse)
    (h : g.materialize u = some (tc, u')) :
    (∃ acc, u.accounts[u.slot g.transaction_gen.1]? = some acc ∧
      tc.transaction.raw_txn.sequence_number = acc.sequence_number ∧
      tc.transaction.raw_txn.sender = acc.address) ∧
    u'.accounts.length = u.accounts.length ∧
    (∀ (k : Nat) (acc : AccountInfo), u.accounts[k]? = some acc →
      ∃ acc', u'.accounts[k]? = some acc' ∧
        acc'.address = acc.address ∧
        acc'.private_key = acc.private_key ∧
        acc'.public_key = acc.public_key ∧
        acc'.sequence_number = acc.sequence_number +
          (if k = u.slot g.transaction_gen.1 then 1 else 0) ∧
        acc'.sent_event_handle.key = acc.sent_event_handle.key ∧
        acc'.sent_event_handle.count =
          acc.sent_event_handle.count + sentEmits g.event_gens u.accounts.length k ∧
        acc'.received_event_handle.key = acc.received_event_handle.key ∧
        acc'.received_event_handle.count =
          acc.received_event_handle.count + recvEmits g.event_gens u.accounts.length k) ∧
    materializeStates g.account_state_gens u' = some tc.account_states ∧
    (∀ (idx i : Nat) (bg : AccountStateBlobGen),
      g.account_state_gens[idx]? = some (i, bg) →
      ∃ acc', u'.get_account_info i = some acc' ∧
        tc.account_states[idx]? = some (acc'.address,
          (⟨⟨bg.account_resource_gen.balance, acc'.sequence_number, acc'.public_key,
            bg.account_resource_gen.delegated_key_rotation_capability,
            bg.account_resource_gen.delegated_withdrawal_capability,
            acc'.sent_event_handle, acc'.received_event_handle⟩⟩ : AccountStateBlob))) := by
  unfold TransactionToCommitGen.materialize at h
  cases hct : g.transaction_gen.2.materialize g.transaction_gen.1 u with
  | none => rw [hct] at h; cases h
  | some r1 =>
    obtain ⟨ct, u1⟩ := r1
    rw [hct] at h
    dsimp only at h
    cases hev : materializeEvents g.event_gens u1 with
    | none => rw [hev] at h; cases h
    | some r2 =>
      obtain ⟨es, u2⟩ := r2
      rw [hev] at h
      dsimp only at h
      cases hst : materializeStates g.account_state_gens u2 with
      | none => rw [hst] at h; cases h
      | some sts =>
        rw [hst] at h
        dsimp only at h
        simp only [Option.some.injEq, Prod.mk.injEq] at h
        obtain ⟨rfl, rfl⟩ := h
        obtain ⟨raw, accs, hraw, hacc1, rfl⟩ := sct_materialize_inv _ _ _ _ _ hct
        obtain ⟨acc, haccu, htxn1, htxn2, hlenu1, hself, hother⟩ :=
          raw_transaction_gen_materialize_frame _ _ _ _ _ hraw
        obtain ⟨hlen2, heff⟩ := materializeEvents_effect g.event_gens u1 es u2 hev
        refine ⟨⟨acc, haccu, htxn1, htxn2⟩, by rw [hlen2, hlenu1], ?_, hst, ?_⟩
        · intro k acc2 hacc2
          by_cases hk : k = u.slot g.transaction_gen.1
          · subst hk
            have hacc2acc : acc2 = acc := by
              rw [haccu] at hacc2
              exact (Option.some.inj hacc2).symm
            subst hacc2acc
            obtain ⟨acc', hacc', f1, f2, f3, f4, f5, f6, f7, f8⟩ :=
              heff (u.slot g.transaction_gen.1) _ hself
            rw [hlenu1] at f6 f8
            exact ⟨acc', hacc', f1, f2, f3, by simp [f4], f5, by simpa using f6, f7,
              by simpa using f8⟩
          · have hu1k : u1.accounts[k]? = some acc2 := by
              rw [hother k hk]
              exact hacc2
            obtain ⟨acc', hacc', f1, f2, f3, f4, f5, f6, f7, f8⟩ := heff k _ hu1k
            rw [hlenu1] at f6 f8
            exact ⟨acc', hacc', f1, f2, f3, by simp [f4, hk], f5, f6, f7, f8⟩
        · intro idx i bg hidx
          exact (materializeStates_pointwise g.account_state_gens u2 sts hst).2 idx i bg hidx

/-- Witness for C8: one account (sequence number 5, sent count 3,
received count 4), one sent-handle event intent and one snapshot intent;
the blob records sequence number 6 and sent count 4. -/
theorem transaction_to_commit_materialize_order_witness :
    (TransactionToCommitGen.materialize
        ⟨(0, ⟨⟨.Program 1, 2, 3, 4⟩⟩), [(0, ⟨99, true⟩)], [(0, ⟨⟨50, false, true⟩⟩)], 7, 8⟩
        ⟨[⟨10, 1, 2, 5, ⟨(10, 0), 3⟩, ⟨(10, 1), 4⟩⟩]⟩ =
      some (⟨⟨⟨10, 5, .Program 1, 2, 3, 4⟩, 2, 1⟩,
          [(10, ⟨⟨50, 6, 2, false, true, ⟨(10, 0), 4⟩, ⟨(10, 1), 4⟩⟩⟩)],
          [⟨(10, 0), 3, 99⟩], 7, 8⟩,
        ⟨[⟨10, 1, 2, 6, ⟨(10, 0), 4⟩, ⟨(10, 1), 4⟩⟩]⟩)) ∧
    (⟨[⟨10, 1, 2, 6, ⟨(10, 0), 4⟩, ⟨(10, 1), 4⟩⟩]⟩ :
        AccountInfoUniverse).accounts.length =
      (⟨[⟨10, 1, 2, 5, ⟨(10, 0), 3⟩, ⟨(10, 1), 4⟩⟩]⟩ :
        AccountInfoUniverse).accounts.length :=
  ⟨by decide,
   (transaction_to_commit_materialize_order
     ⟨(0, ⟨⟨.Program 1, 2, 3, 4⟩⟩), [(0, ⟨99, true⟩)], [(0, ⟨⟨50, false, true⟩⟩)], 7, 8⟩
     ⟨[⟨10, 1, 2, 5, ⟨(10, 0), 3⟩, ⟨(10, 1), 4⟩⟩]⟩
     ⟨⟨⟨10, 5, .Program 1, 2, 3, 4⟩, 2, 1⟩,
       [(10, ⟨⟨50, 6, 2, false, true, ⟨(10, 0), 4⟩, ⟨(10, 1), 4⟩⟩⟩)],
       [⟨(10, 0), 3, 99⟩], 7, 8⟩
     ⟨[⟨10, 1, 2, 6, ⟨(10, 0), 4⟩, ⟨(10, 1), 4⟩⟩]⟩ (by decide)).2.1⟩
